import Mathlib

/-!
Verification of the dynamic-dashboard query planning and translation engine
(two backends: a document store and a tabular SQL store).  JavaScript values
are shallowly embedded as `JSValue`; JS objects are association lists with
JS insertion-order update semantics.  Pure source functions are translated
directly; the external database engines are modelled only as far as the
statements require.
-/

/-- Embedded JavaScript value.  Numbers are modelled as rationals; `vObjectId`
and `vDate` stand for the opaque identifier and date objects the document
backend constructs during value coercion. -/
inductive JSValue where
  | vNull : JSValue
  | vUndef : JSValue
  | vBool : Bool → JSValue
  | vNum : ℚ → JSValue
  | vStr : String → JSValue
  | vArr : List JSValue → JSValue
  | vObj : List (String × JSValue) → JSValue
  | vObjectId : String → JSValue
  | vDate : String → JSValue

open JSValue

mutual

/-- Structural equality on embedded JS values (used to model the document
engine's value comparison). -/
def jsEq : JSValue → JSValue → Bool
  | vNull, vNull => true
  | vUndef, vUndef => true
  | vBool a, vBool b => a = b
  | vNum a, vNum b => a = b
  | vStr a, vStr b => a = b
  | vArr a, vArr b => jsEqL a b
  | vObj a, vObj b => jsEqO a b
  | vObjectId a, vObjectId b => a = b
  | vDate a, vDate b => a = b
  | _, _ => false

/-- Elementwise equality on JS arrays. -/
def jsEqL : List JSValue → List JSValue → Bool
  | [], [] => true
  | a :: as', b :: bs => jsEq a b && jsEqL as' bs
  | _, _ => false

/-- Bindingwise equality on JS objects. -/
def jsEqO : List (String × JSValue) → List (String × JSValue) → Bool
  | [], [] => true
  | (k, a) :: as', (k', b) :: bs => k = k' && jsEq a b && jsEqO as' bs
  | _, _ => false

end

/-- JS object field lookup (first binding wins; JS objects have unique keys). -/
def objGetO (o : List (String × JSValue)) (k : String) : Option JSValue :=
  match o with
  | [] => none
  | (k', v) :: r => if k' = k then some v else objGetO r k

/-- JS object field read: missing keys read as `undefined`. -/
def objGetU (o : List (String × JSValue)) (k : String) : JSValue :=
  (objGetO o k).getD vUndef

/-- JS property write: an existing key is updated in place, a new key is
appended, matching JS insertion-order semantics. -/
def objSet (o : List (String × JSValue)) (k : String) (v : JSValue) :
    List (String × JSValue) :=
  match o with
  | [] => [(k, v)]
  | (k', v') :: r => if k' = k then (k, v) :: r else (k', v') :: objSet r k v

/-- JS `Object.assign(target, src)`: write every binding of `src` into `target`
in order. -/
def objAssign (target src : List (String × JSValue)) :
    List (String × JSValue) :=
  src.foldl (fun t kv => objSet t kv.1 kv.2) target

/-- JS truthiness. -/
def jsTruthy : JSValue → Bool
  | vNull => false
  | vUndef => false
  | vBool b => b
  | vNum q => q ≠ 0
  | vStr s => s ≠ ""
  | vArr _ => true
  | vObj _ => true
  | vObjectId _ => true
  | vDate _ => true

/-- JS `a || b`. -/
def jsOr (a b : JSValue) : JSValue := if jsTruthy a then a else b

/-- Decimal digit test on characters. -/
def isDigitC (c : Char) : Bool := decide (48 ≤ c.toNat) && decide (c.toNat ≤ 57)

/-- Hexadecimal digit test ([0-9a-fA-F]). -/
def isHexC (c : Char) : Bool :=
  isDigitC c || (decide (97 ≤ c.toNat) && decide (c.toNat ≤ 102))
    || (decide (65 ≤ c.toNat) && decide (c.toNat ≤ 70))

/-- JS whitespace (the code points `Number` and `trim` strip). -/
def isWS (c : Char) : Bool :=
  c.toNat ∈ ([9, 10, 11, 12, 13, 32, 160, 0x2028, 0x2029, 0xFEFF] : List Nat)

/-- Test for the source regex `/^[0-9a-fA-F]{24}$/` (ObjectId shape). -/
def isHex24 (s : String) : Bool :=
  s.data.length = 24 && s.data.all isHexC

/-- Test for the source regex `/^\d{4}-\d{2}-\d{2}/` on a character list. -/
def dateShapeL : List Char → Bool
  | a :: b :: c :: d :: s1 :: e :: f :: s2 :: g :: h :: _ =>
      s1 = '-' && (s2 = '-' && (isDigitC a && (isDigitC b && (isDigitC c &&
        (isDigitC d && (isDigitC e && (isDigitC f && (isDigitC g &&
          isDigitC h))))))))
  | _ => false

/-- Test for the source regex `/^\d{4}-\d{2}-\d{2}T/`. -/
def dateShapeTL : List Char → Bool
  | a :: b :: c :: d :: s1 :: e :: f :: s2 :: g :: h :: s3 :: _ =>
      s1 = '-' && (s2 = '-' && (s3 = 'T' && (isDigitC a && (isDigitC b &&
        (isDigitC c && (isDigitC d && (isDigitC e && (isDigitC f &&
          (isDigitC g && isDigitC h)))))))))
  | _ => false

/-- Date-shape test on strings (`/^\d{4}-\d{2}-\d{2}/`). -/
def dateShape (s : String) : Bool := dateShapeL s.data

/-- True when only trailing whitespace (or nothing) remains: the end-of-input
condition of the JS `Number` grammar. -/
def endOK (cs : List Char) : Bool := cs.all isWS

/-- Exponent digits of the JS `Number` grammar: optional sign, then one or
more digits, then the end of input. -/
def expDigits (cs : List Char) : Bool :=
  let cs' := match cs with
    | c :: r => if c = '+' ∨ c = '-' then r else c :: r
    | [] => []
  !(cs'.takeWhile isDigitC).isEmpty && endOK (cs'.dropWhile isDigitC)

/-- Optional exponent part of the JS `Number` grammar. -/
def expPart (cs : List Char) : Bool :=
  match cs with
  | [] => true
  | c :: r => if c = 'e' ∨ c = 'E' then expDigits r else endOK (c :: r)

/-- What may follow the integer digits of a decimal literal: an optional
fraction, then an optional exponent. -/
def afterIntPart (cs : List Char) : Bool :=
  match cs with
  | c :: r => if c = '.' then expPart (r.dropWhile isDigitC) else expPart (c :: r)
  | [] => expPart []

/-- Decimal literal of the JS `Number` grammar: `digits [ . digits ] [exp]`
or `. digits [exp]`. -/
def decimalLit (cs : List Char) : Bool :=
  let ds := cs.takeWhile isDigitC
  let rest := cs.dropWhile isDigitC
  if ds.isEmpty then
    match rest with
    | c :: r =>
        if c = '.' then
          !(r.takeWhile isDigitC).isEmpty && expPart (r.dropWhile isDigitC)
        else false
    | [] => false
  else afterIntPart rest

/-- Decimal literal or the literal `Infinity` (with optional trailing
whitespace). -/
def decOrInf (cs : List Char) : Bool :=
  if cs.take 8 = "Infinity".data then endOK (cs.drop 8) else decimalLit cs

/-- Radix prefix markers accepted by JS `Number` after a leading `0`. -/
def isRadixMark (c : Char) : Bool :=
  c = 'x' || c = 'X' || c = 'o' || c = 'O' || c = 'b' || c = 'B'

/-- Digits of a radix literal. -/
def radixDigit (m : Char) (c : Char) : Bool :=
  if m = 'x' || m = 'X' then isHexC c
  else if m = 'o' || m = 'O' then decide (48 ≤ c.toNat) && decide (c.toNat ≤ 55)
  else c = '0' || c = '1'

/-- Unsigned or signed numeric literal of the JS `Number` grammar (radix
literals are only accepted unsigned, as in JS). -/
def numLit (cs : List Char) : Bool :=
  match cs with
  | [] => decOrInf []
  | c :: r =>
      if c = '+' ∨ c = '-' then decOrInf r
      else if c = '0' then
        match r with
        | c2 :: r2 =>
            if isRadixMark c2 then
              !(r2.takeWhile (radixDigit c2)).isEmpty &&
                endOK (r2.dropWhile (radixDigit c2))
            else decimalLit (c :: r)
        | [] => decimalLit (c :: r)
      else decOrInf (c :: r)

/-- Model of JS `!isNaN(v)` for a string `v`: `Number(v)` converts without
producing NaN.  Leading whitespace is stripped; trailing whitespace is folded
into the grammar's end-of-input condition. -/
def jsStrIsNumeric (s : String) : Bool :=
  let cs := s.data.dropWhile isWS
  if cs.isEmpty then true else numLit cs

/-- Model of `v.trim() !== ""`: the string has a non-whitespace character. -/
def jsTrimNonempty (s : String) : Bool := s.data.any (fun c => !isWS c)

/-- Numeric value of a numeric-looking string (rational model of the JS
float).  Only the fact of conversion matters to the theorems below; the
value itself is a best-effort decimal/exponent interpretation. -/
def jsNumOf (s : String) : ℚ :=
  let cs := s.data.dropWhile isWS
  let (sgn, cs1) : ℚ × List Char :=
    match cs with
    | '-' :: r => (-1, r)
    | '+' :: r => (1, r)
    | r => (1, r)
  let intDs := cs1.takeWhile isDigitC
  let rest := cs1.dropWhile isDigitC
  let intV : ℚ := intDs.foldl (fun a c => a * 10 + (c.toNat - 48 : ℕ)) 0
  let (fracV, rest2) : ℚ × List Char :=
    match rest with
    | '.' :: r =>
        let fds := r.takeWhile isDigitC
        (fds.foldr (fun c a => (a + (c.toNat - 48 : ℕ)) / 10) 0,
          r.dropWhile isDigitC)
    | r => (0, r)
  let expV : ℤ :=
    match rest2 with
    | 'e' :: r | 'E' :: r =>
        let (esgn, r') : ℤ × List Char :=
          match r with
          | '-' :: r' => (-1, r')
          | '+' :: r' => (1, r')
          | r' => (1, r')
        esgn * (r'.takeWhile isDigitC).foldl (fun a c => a * 10 + (c.toNat - 48 : ℤ)) 0
    | _ => 0
  sgn * (intV + fracV) * (10 : ℚ) ^ expV

/-- Days in a month (model of the JS engine's ISO date validation). -/
def daysInMonth (y m : Nat) : Nat :=
  if m = 2 then
    if y % 4 = 0 && (y % 100 ≠ 0 || y % 400 = 0) then 29 else 28
  else if m ∈ ([4, 6, 9, 11] : List Nat) then 30
  else 31

/-- Digit value of a character. -/
def digitVal (c : Char) : Nat := c.toNat - 48

/-- Model of the JS engine's time-of-day validation for the `THH:MM[:SS]`
suffix of an ISO date string. -/
def timeShapeOK : List Char → Bool
  | h1 :: h2 :: ':' :: m1 :: m2 :: rest =>
      isDigitC h1 && isDigitC h2 && isDigitC m1 && isDigitC m2 &&
      decide (digitVal h1 * 10 + digitVal h2 ≤ 23) &&
      decide (digitVal m1 * 10 + digitVal m2 ≤ 59) &&
      (match rest with
       | [] => true
       | ':' :: s1 :: s2 :: [] =>
           isDigitC s1 && isDigitC s2 && decide (digitVal s1 * 10 + digitVal s2 ≤ 59)
       | _ => false)
  | _ => false

/-- Model of `new Date(v).toString() !== 'Invalid Date'` for the ISO-shaped
strings the source feeds it: a calendar-valid `YYYY-MM-DD`, optionally
followed by `T` and a valid time of day. -/
def jsDateOK (s : String) : Bool :=
  match s.data with
  | y1 :: y2 :: y3 :: y4 :: '-' :: m1 :: m2 :: '-' :: d1 :: d2 :: rest =>
      isDigitC y1 && isDigitC y2 && isDigitC y3 && isDigitC y4 &&
      isDigitC m1 && isDigitC m2 && isDigitC d1 && isDigitC d2 &&
      (let y := ((digitVal y1 * 10 + digitVal y2) * 10 + digitVal y3) * 10 + digitVal y4
       let m := digitVal m1 * 10 + digitVal m2
       let d := digitVal d1 * 10 + digitVal d2
       decide (1 ≤ m) && decide (m ≤ 12) && decide (1 ≤ d) &&
       decide (d ≤ daysInMonth y m)) &&
      (match rest with
       | [] => true
       | 'T' :: tp => timeShapeOK tp
       | _ => false)
  | _ => false

/-! ### Document backend: value coercion and the operator map (operators.js) -/

/-- Source `maybeNumber`: a 24-character hex string becomes an `ObjectId`
(the constructor always succeeds on such strings, so the catch branch is
unreachable); otherwise a non-empty numeric-looking string becomes a number;
otherwise the value is unchanged. -/
def maybeNumber (v : JSValue) : JSValue :=
  match v with
  | vStr s =>
      if isHex24 s then vObjectId s
      else if jsTrimNonempty s && jsStrIsNumeric s then vNum (jsNumOf s)
      else vStr s
  | v => v

/-- Source `maybeDate`: a string matching either date-shape regex is parsed
with `new Date` and replaced when the parse is valid; otherwise unchanged. -/
def maybeDate (v : JSValue) : JSValue :=
  match v with
  | vStr s =>
      if (dateShapeL s.data || dateShapeTL s.data) then
        if jsDateOK s then vDate s else vStr s
      else vStr s
  | v => v

/-- The coercion the standard operators apply: `maybeDate(maybeNumber(v))`. -/
def coerceValue (v : JSValue) : JSValue := maybeDate (maybeNumber v)

/-- JS string interpolation of a value (used by the pattern operators'
template literals); only the string case is exercised by the theorems. -/
def jsToStr : JSValue → String
  | vStr s => s
  | vNum q => toString q
  | vBool b => if b then "true" else "false"
  | vNull => "null"
  | vUndef => "undefined"
  | vArr _ => ""
  | vObj _ => "[object Object]"
  | vObjectId s => s
  | vDate s => s

/-- Item coercion inside the `in` operator's array map: the explicit
24-hex-ObjectId case, then `maybeDate(maybeNumber(item))`. -/
def coerceInItem (item : JSValue) : JSValue :=
  match item with
  | vStr s => if isHex24 s then vObjectId s else coerceValue (vStr s)
  | item => coerceValue item

/-- A condition object produced by a standard operator (e.g. `{$gt: v}`). -/
abbrev MCond := List (String × JSValue)

/-- An entry of the combined `OPERATORS` map: a standard operator is a
function from the filter value to a condition object; an aggregation
operator is mapped to a plain string (its pipeline accumulator name). -/
inductive OpEntry where
  | std : (JSValue → MCond) → OpEntry
  | agg : String → OpEntry

/-- JS property read `v.from` on an arbitrary value (an object yields the
binding or `undefined`; primitives yield `undefined`). -/
def objGetB (v : JSValue) (k : String) : JSValue :=
  match v with
  | vObj fs => objGetU fs k
  | _ => vUndef

/-- Source `OPERATORS` (`{...STANDARD_OPERATORS, ...AGGREGATION_OPERATORS}`). -/
def OPERATORS : String → Option OpEntry
  | "eq" => some (.std fun v => [("$eq", coerceValue v)])
  | "ne" => some (.std fun v => [("$ne", coerceValue v)])
  | "gt" => some (.std fun v => [("$gt", coerceValue v)])
  | "gte" => some (.std fun v => [("$gte", coerceValue v)])
  | "lt" => some (.std fun v => [("$lt", coerceValue v)])
  | "lte" => some (.std fun v => [("$lte", coerceValue v)])
  | "startsWith" => some (.std fun v =>
      [("$regex", vStr ("^" ++ jsToStr v)), ("$options", vStr "i")])
  | "endsWith" => some (.std fun v =>
      [("$regex", vStr (jsToStr v ++ "$")), ("$options", vStr "i")])
  | "contains" => some (.std fun v =>
      [("$regex", vStr (jsToStr v)), ("$options", vStr "i")])
  | "in" => some (.std fun v =>
      [("$in", match v with
               | vArr xs => vArr (xs.map coerceInItem)
               | v => vArr [v])])
  | "between" => some (.std fun v =>
      [("$gte", coerceValue (objGetB v "from")),
       ("$lte", coerceValue (objGetB v "to"))])
  | "sum" => some (.agg "$sum")
  | "avg" => some (.agg "$avg")
  | "min" => some (.agg "$min")
  | "max" => some (.agg "$max")
  | "count" => some (.agg "$sum")
  | "first" => some (.agg "$first")
  | "last" => some (.agg "$last")
  | _ => none

/-- Whether an operator tag is bound to a standard (filtering) operator. -/
def isStdOp (op : String) : Bool :=
  match OPERATORS op with
  | some (.std _) => true
  | _ => false

/-- A filter as normalised by the routes before matching: resolved field
path, operator tag, raw value. -/
structure MatchFilter where
  field : String
  operator : String
  value : JSValue

/-- How `buildMatch` fails: an operator absent from `OPERATORS` throws
`Invalid operator: <op>`; an aggregation tag is bound to a plain string, so
calling it throws a `TypeError` instead. -/
inductive MErr where
  | invalidOperator : String → MErr
  | notAFunction : String → MErr
deriving DecidableEq

/-- Lookup in a match object under construction. -/
def objGetMC (o : List (String × MCond)) (k : String) : Option MCond :=
  match o with
  | [] => none
  | (k', v) :: r => if k' = k then some v else objGetMC r k

/-- Keyed update of a match object under construction. -/
def objSetMC (o : List (String × MCond)) (k : String) (v : MCond) :
    List (String × MCond) :=
  match o with
  | [] => [(k, v)]
  | (k', v') :: r => if k' = k then (k, v) :: r else (k', v') :: objSetMC r k v

/-- Worker of `buildMatch`: the accumulated match object is keyed by field;
a first condition for a field is stored as-is, a later one is merged with
`Object.assign` (stored conditions are objects, hence truthy). -/
def buildMatchGo (acc : List (String × MCond)) :
    List MatchFilter → Except MErr (List (String × MCond))
  | [] => .ok acc
  | f :: rest =>
      match OPERATORS f.operator with
      | none => .error (.invalidOperator f.operator)
      | some (.agg _) => .error (.notAFunction f.operator)
      | some (.std g) =>
          let cond := g f.value
          let acc' :=
            match objGetMC acc f.field with
            | none => objSetMC acc f.field cond
            | some old => objSetMC acc f.field (objAssign old cond)
          buildMatchGo acc' rest

/-- Source `buildMatch` (filterBuilder.js). -/
def buildMatch (filters : List MatchFilter) :
    Except MErr (List (String × MCond)) :=
  buildMatchGo [] filters

/-! ### The coercion order stated by the specification (for claim C4) -/

/-- Value coercion as the specification words it: identifier-shape check
first, then date-shape check, then numeric check, else leave unchanged.
This definition follows the spec's order (unlike the source, which runs the
numeric check before the date check) so the two can be compared. -/
def coerceSpecOrder (v : JSValue) : JSValue :=
  match v with
  | vStr s =>
      if isHex24 s then vObjectId s
      else if (dateShapeL s.data || dateShapeTL s.data) && jsDateOK s then vDate s
      else if jsTrimNonempty s && jsStrIsNumeric s then vNum (jsNumOf s)
      else vStr s
  | v => v

theorem isDigitC_bounds {c : Char} (h : isDigitC c = true) :
    48 ≤ c.toNat ∧ c.toNat ≤ 57 := by
  simp [isDigitC] at h; exact h

theorem isDigitC_not_isWS {c : Char} (h : isDigitC c = true) : isWS c = false := by
  obtain ⟨h1, h2⟩ := isDigitC_bounds h
  simp [isWS]; omega

/-- A digit character differs from any non-digit character. -/
theorem digit_ne {c d : Char} (h : isDigitC c = true) (hd : isDigitC d = false) :
    ¬c = d := by
  intro he; subst he; rw [h] at hd; exact Bool.noConfusion hd

theorem isDigitC_not_radix {c : Char} (h : isDigitC c = true) :
    isRadixMark c = false := by
  rw [isRadixMark]
  simp only [Bool.or_eq_false_iff, decide_eq_false_iff_not]
  exact ⟨⟨⟨⟨⟨digit_ne h (by decide), digit_ne h (by decide)⟩,
    digit_ne h (by decide)⟩, digit_ne h (by decide)⟩,
    digit_ne h (by decide)⟩, digit_ne h (by decide)⟩

theorem numLit_of_dateShape {a b c d g h : Char} {e f : Char} {t : List Char}
    (ha : isDigitC a = true) (hb : isDigitC b = true) (hc : isDigitC c = true)
    (hd : isDigitC d = true) :
    numLit (a :: b :: c :: d :: '-' :: e :: f :: '-' :: g :: h :: t) = false := by
  have hdash : isDigitC '-' = false := by decide
  have e1 : ¬(('-' : Char) = '.') := by decide
  have e2 : ¬(('-' : Char) = 'e' ∨ ('-' : Char) = 'E') := by decide
  have e4 : isWS '-' = false := by decide
  have hgoal : decimalLit (a :: b :: c :: d :: '-' :: e :: f :: '-' :: g :: h :: t)
      = false := by
    simp [decimalLit, afterIntPart, expPart, endOK, List.takeWhile_cons,
      List.dropWhile_cons, ha, hb, hc, hd, hdash, e1, e2, e4]
  have hinf : decOrInf (a :: b :: c :: d :: '-' :: e :: f :: '-' :: g :: h :: t)
      = false := by
    rw [decOrInf]
    have htake : (a :: b :: c :: d :: '-' :: e :: f :: '-' :: g :: h :: t).take 8
        = [a, b, c, d, '-', e, f, '-'] := by simp
    rw [htake]
    have hdata : "Infinity".data = ['I', 'n', 'f', 'i', 'n', 'i', 't', 'y'] := rfl
    rw [hdata]
    have hne : ¬([a, b, c, d, '-', e, f, '-']
        = ['I', 'n', 'f', 'i', 'n', 'i', 't', 'y']) := by
      intro hcontra
      have haI : a = 'I' := by
        have hhead := congrArg (fun l => l.headD ' ') hcontra
        simpa using hhead
      exact absurd haI (digit_ne ha (by decide))
    rw [if_neg hne]
    exact hgoal
  rw [numLit]
  rw [if_neg (by
    rintro (hpm | hpm) <;> exact absurd hpm (digit_ne ha (by decide)))]
  by_cases h0 : a = '0'
  · subst h0
    rw [if_pos rfl]
    rw [if_neg (by simp [isDigitC_not_radix hb])]
    exact hgoal
  · rw [if_neg h0]
    exact hinf

/-- Date-shaped strings (`/^\d{4}-\d{2}-\d{2}/`) are never numeric-looking:
their fifth character is a dash in a position the `Number` grammar rejects. -/
theorem dateShape_not_numeric {s : String} (h : dateShapeL s.data = true) :
    jsStrIsNumeric s = false := by
  rw [jsStrIsNumeric]
  rcases hs : s.data with _ | ⟨a, l1⟩
  · rw [hs] at h; simp [dateShapeL] at h
  rcases l1 with _ | ⟨b, l2⟩; · rw [hs] at h; simp [dateShapeL] at h
  rcases l2 with _ | ⟨c, l3⟩; · rw [hs] at h; simp [dateShapeL] at h
  rcases l3 with _ | ⟨d, l4⟩; · rw [hs] at h; simp [dateShapeL] at h
  rcases l4 with _ | ⟨s1, l5⟩; · rw [hs] at h; simp [dateShapeL] at h
  rcases l5 with _ | ⟨e, l6⟩; · rw [hs] at h; simp [dateShapeL] at h
  rcases l6 with _ | ⟨f, l7⟩; · rw [hs] at h; simp [dateShapeL] at h
  rcases l7 with _ | ⟨s2, l8⟩; · rw [hs] at h; simp [dateShapeL] at h
  rcases l8 with _ | ⟨g, l9⟩; · rw [hs] at h; simp [dateShapeL] at h
  rcases l9 with _ | ⟨hh, t⟩; · rw [hs] at h; simp [dateShapeL] at h
  rw [hs] at h
  simp only [dateShapeL, Bool.and_eq_true, decide_eq_true_eq] at h
  obtain ⟨hs1, hs2, ha, hb, hc, hd, he', hf, hg, hh'⟩ := h
  subst hs1; subst hs2
  simp [List.dropWhile_cons, isDigitC_not_isWS ha,
    numLit_of_dateShape ha hb hc hd]

/-- The `T`-anchored date-shape regex implies the plain one. -/
theorem dateShapeTL_imp {cs : List Char} (h : dateShapeTL cs = true) :
    dateShapeL cs = true := by
  rcases cs with _ | ⟨a, l1⟩; · simp [dateShapeTL] at h
  rcases l1 with _ | ⟨b, l2⟩; · simp [dateShapeTL] at h
  rcases l2 with _ | ⟨c, l3⟩; · simp [dateShapeTL] at h
  rcases l3 with _ | ⟨d, l4⟩; · simp [dateShapeTL] at h
  rcases l4 with _ | ⟨s1, l5⟩; · simp [dateShapeTL] at h
  rcases l5 with _ | ⟨e, l6⟩; · simp [dateShapeTL] at h
  rcases l6 with _ | ⟨f, l7⟩; · simp [dateShapeTL] at h
  rcases l7 with _ | ⟨s2, l8⟩; · simp [dateShapeTL] at h
  rcases l8 with _ | ⟨g, l9⟩; · simp [dateShapeTL] at h
  rcases l9 with _ | ⟨hh, l10⟩; · simp [dateShapeTL] at h
  rcases l10 with _ | ⟨s3, t⟩; · simp [dateShapeTL] at h
  simp only [dateShapeTL, Bool.and_eq_true, decide_eq_true_eq] at h
  obtain ⟨hs1, hs2, hs3, ha, hb, hc, hd, he, hf, hg, hhh⟩ := h
  simp [dateShapeL, hs1, hs2, ha, hb, hc, hd, he, hf, hg, hhh]

/-- The source coercion `maybeDate(maybeNumber(v))` is extensionally the
coercion order the specification states (identifier shape, then date shape,
then numeric): the two orders agree because a date-shaped string can never
look numeric. -/
theorem coerceValue_eq_specOrder (v : JSValue) :
    coerceValue v = coerceSpecOrder v := by
  cases v <;> try rfl
  case vStr s =>
    rw [coerceValue, maybeNumber, coerceSpecOrder]
    by_cases hhex : isHex24 s
    · rw [if_pos hhex, if_pos hhex]; rfl
    rw [if_neg hhex, if_neg hhex]
    by_cases hnum : jsTrimNonempty s && jsStrIsNumeric s
    · rw [if_pos hnum]
      have hnn : jsStrIsNumeric s = true := by
        cases hj : jsStrIsNumeric s
        · rw [hj, Bool.and_false] at hnum; exact Bool.noConfusion hnum
        · rfl
      have hshape : dateShapeL s.data = false := by
        by_contra hsh
        rw [Bool.not_eq_false] at hsh
        rw [dateShape_not_numeric hsh] at hnn
        exact Bool.noConfusion hnn
      have hshapeT : dateShapeTL s.data = false := by
        by_contra hsh
        rw [Bool.not_eq_false] at hsh
        rw [dateShape_not_numeric (dateShapeTL_imp hsh)] at hnn
        exact Bool.noConfusion hnn
      simp [maybeDate, hshape, hshapeT, hnum]
    · rw [if_neg hnum]
      by_cases hsh : (dateShapeL s.data || dateShapeTL s.data) = true
      · by_cases hok : jsDateOK s
        · simp [maybeDate, hsh, hok]
        · simp [maybeDate, hsh, hok, hnum]
      · simp at hsh
        simp [maybeDate, hsh.1, hsh.2, hnum]

/-! ### Characterisation of `buildMatch` (claims C1, C3, C10) -/

/-- The condition object a standard operator produces for a filter (the
default `[]` branch is unreachable when the operator is standard). -/
def condOf (f : MatchFilter) : MCond :=
  match OPERATORS f.operator with
  | some (.std g) => g f.value
  | _ => []

/-- The condition objects of all filters on one field, in list order. -/
def condsFor (fs : List MatchFilter) (phi : String) : List MCond :=
  (fs.filter (fun f => f.field = phi)).map condOf

/-- How a field's final condition arises: an existing condition is extended
by `Object.assign` with each later condition; a fresh field stores its first
condition and is then extended likewise. -/
def mergeLk : Option MCond → List MCond → Option MCond
  | some c, l => some (l.foldl objAssign c)
  | none, [] => none
  | none, c :: l => some (l.foldl objAssign c)

theorem objGetMC_objSetMC_self (o : List (String × MCond)) (k : String)
    (v : MCond) : objGetMC (objSetMC o k v) k = some v := by
  induction o with
  | nil => simp [objSetMC, objGetMC]
  | cons kv r ih =>
      obtain ⟨k', v'⟩ := kv
      by_cases he : k' = k
      · subst he; simp [objSetMC, objGetMC]
      · simp [objSetMC, objGetMC, he, ih]

theorem objGetMC_objSetMC_ne (o : List (String × MCond)) {k k' : String}
    (v : MCond) (h : k' ≠ k) : objGetMC (objSetMC o k v) k' = objGetMC o k' := by
  induction o with
  | nil => simp [objSetMC, objGetMC, Ne.symm h]
  | cons kv r ih =>
      obtain ⟨k0, v0⟩ := kv
      by_cases he : k0 = k
      · subst he
        simp [objSetMC, objGetMC, Ne.symm h]
      · simp only [objSetMC, if_neg he]
        by_cases he' : k0 = k'
        · subst he'; simp [objGetMC]
        · simp [objGetMC, he', ih]

theorem keys_objSetMC (o : List (String × MCond)) (k : String) (v : MCond) :
    (objSetMC o k v).map Prod.fst =
      if k ∈ o.map Prod.fst then o.map Prod.fst else o.map Prod.fst ++ [k] := by
  induction o with
  | nil => simp [objSetMC]
  | cons kv r ih =>
      obtain ⟨k0, v0⟩ := kv
      by_cases he : k0 = k
      · subst he; simp [objSetMC]
      · simp only [objSetMC, if_neg he, List.map_cons, ih]
        by_cases hmem : k ∈ r.map Prod.fst
        · rw [if_pos hmem, if_pos (by simp [hmem])]
        · rw [if_neg hmem, if_neg (by simp [hmem, Ne.symm he]), List.cons_append]

theorem nodup_objSetMC {o : List (String × MCond)} {k : String} {v : MCond}
    (h : (o.map Prod.fst).Nodup) : ((objSetMC o k v).map Prod.fst).Nodup := by
  rw [keys_objSetMC]
  by_cases hmem : k ∈ o.map Prod.fst
  · rw [if_pos hmem]; exact h
  · rw [if_neg hmem]
    simp [List.nodup_append, h, hmem]

/-- Success-path characterisation of the `buildMatch` accumulator loop: with
all operators standard, the loop succeeds; the keys of the produced match
object stay duplicate-free; and each field's entry merges that field's
condition objects left to right with `Object.assign`. -/
theorem buildMatchGo_char (fs : List MatchFilter) :
    ∀ acc, (∀ f ∈ fs, isStdOp f.operator = true) →
    (acc.map Prod.fst).Nodup →
    ∃ m, buildMatchGo acc fs = .ok m ∧ ((m.map Prod.fst).Nodup ∧
      ∀ phi, objGetMC m phi = mergeLk (objGetMC acc phi) (condsFor fs phi)) := by
  induction fs with
  | nil =>
      intro acc _ hnod
      refine ⟨acc, rfl, hnod, fun phi => ?_⟩
      rw [condsFor]
      simp only [List.filter_nil, List.map_nil]
      cases h : objGetMC acc phi <;> simp [mergeLk]
  | cons f rest ih =>
      intro acc hstd hnod
      have hf : isStdOp f.operator = true := hstd f (by simp)
      rw [isStdOp] at hf
      rcases hop : OPERATORS f.operator with _ | entry
      · rw [hop] at hf; exact Bool.noConfusion hf
      rcases entry with g | s
      swap
      · rw [hop] at hf; simp at hf
      have hcond : condOf f = g f.value := by rw [condOf, hop]
      have hstd' : ∀ x ∈ rest, isStdOp x.operator = true :=
        fun x hx => hstd x (List.mem_cons_of_mem f hx)
      have hconsS : condsFor (f :: rest) f.field
          = condOf f :: condsFor rest f.field := by
        rw [condsFor, condsFor]; simp [List.filter_cons]
      cases hget : objGetMC acc f.field with
      | none =>
          have hstep : buildMatchGo acc (f :: rest)
              = buildMatchGo (objSetMC acc f.field (g f.value)) rest := by
            rw [buildMatchGo, hop]; simp only [hget]
          obtain ⟨m, hm, hmn, hchar⟩ :=
            ih (objSetMC acc f.field (g f.value)) hstd' (nodup_objSetMC hnod)
          refine ⟨m, by rw [hstep]; exact hm, hmn, fun phi => ?_⟩
          rw [hchar phi]
          by_cases hphi : phi = f.field
          · rw [hphi, objGetMC_objSetMC_self, hconsS, hget, hcond]
            rfl
          · rw [objGetMC_objSetMC_ne _ _ hphi]
            have hcons : condsFor (f :: rest) phi = condsFor rest phi := by
              rw [condsFor, condsFor]
              simp [List.filter_cons, Ne.symm hphi]
            rw [hcons]
      | some old =>
          have hstep : buildMatchGo acc (f :: rest)
              = buildMatchGo (objSetMC acc f.field (objAssign old (g f.value)))
                  rest := by
            rw [buildMatchGo, hop]; simp only [hget]
          obtain ⟨m, hm, hmn, hchar⟩ :=
            ih (objSetMC acc f.field (objAssign old (g f.value))) hstd'
              (nodup_objSetMC hnod)
          refine ⟨m, by rw [hstep]; exact hm, hmn, fun phi => ?_⟩
          rw [hchar phi]
          by_cases hphi : phi = f.field
          · rw [hphi, objGetMC_objSetMC_self, hconsS, hget, hcond]
            rfl
          · rw [objGetMC_objSetMC_ne _ _ hphi]
            have hcons : condsFor (f :: rest) phi = condsFor rest phi := by
              rw [condsFor, condsFor]
              simp [List.filter_cons, Ne.symm hphi]
            rw [hcons]

/-- With any non-standard operator present, the `buildMatch` loop fails (the
unknown tag throws `Invalid operator`, an aggregation tag throws a
`TypeError`); it never silently skips the entry. -/
theorem buildMatchGo_fails (fs : List MatchFilter) :
    ∀ acc, (∃ f ∈ fs, isStdOp f.operator = false) →
    ∃ e, buildMatchGo acc fs = .error e := by
  induction fs with
  | nil => intro acc h; obtain ⟨f, hf, -⟩ := h; simp at hf
  | cons f rest ih =>
      intro acc h
      rw [buildMatchGo]
      rcases hop : OPERATORS f.operator with _ | entry
      · exact ⟨.invalidOperator f.operator, rfl⟩
      rcases entry with g | s
      · obtain ⟨f', hf', hstd'⟩ := h
        rcases List.mem_cons.mp hf' with he | hmem
        · subst he; rw [isStdOp, hop] at hstd'; exact Bool.noConfusion hstd'
        · cases hget : objGetMC acc f.field with
          | none =>
              obtain ⟨e, he⟩ := ih (objSetMC acc f.field (g f.value))
                ⟨f', hmem, hstd'⟩
              refine ⟨e, ?_⟩
              simp only [hget]
              exact he
          | some old =>
              obtain ⟨e, he⟩ :=
                ih (objSetMC acc f.field (objAssign old (g f.value)))
                  ⟨f', hmem, hstd'⟩
              refine ⟨e, ?_⟩
              simp only [hget]
              exact he
      · exact ⟨.notAFunction f.operator, rfl⟩

/-! ### Relation graph, path resolution and join planning -/

/-- A configured relation (`{from, to, local, foreign}` in relations.js);
`fromE`/`toE` name the two entities, `localK`/`foreignK` the key pair. -/
structure Relation where
  fromE : String
  toE : String
  localK : String
  foreignK : String

/-- The relation configuration of the repository
(Dynamic-Dashboard-MongoDB/relations.js). -/
def RELATIONS : List Relation :=
  [⟨"customers", "invoices", "_id", "customer_id"⟩,
   ⟨"products", "invoices", "_id", "product_id"⟩,
   ⟨"categories", "products", "_id", "category_id"⟩,
   ⟨"categories", "invoices", "_id", "category_id"⟩]

/-- Undirected neighbours of an entity, in the graph's fixed edge
enumeration order. -/
def neighborsOf (rels : List Relation) (x : String) : List String :=
  rels.foldr (fun r acc =>
    (if r.fromE = x then [r.toE] else if r.toE = x then [r.fromE] else [])
      ++ acc) []

/-- Modelled from the spec: breadth-first search worker for `findPath`
(pathResolver.js is not among the source files).  The queue holds reversed
paths; neighbours are visited in edge enumeration order, and a node is
marked visited when enqueued, so the first dequeued path to the target is a
shortest one (§4.1). -/
def bfsPaths (rels : List Relation) (target : String) :
    Nat → List (List String) → List String → Option (List String)
  | 0, _, _ => none
  | _ + 1, [], _ => none
  | fuel + 1, p :: queue, visited =>
      match p with
      | [] => bfsPaths rels target fuel queue visited
      | cur :: _ =>
          if cur = target then some p.reverse
          else
            let nbrs := (neighborsOf rels cur).filter
              (fun n => !visited.contains n)
            bfsPaths rels target fuel (queue ++ nbrs.map (fun n => n :: p))
              (visited ++ nbrs)

/-- Modelled from the spec: `findPath(start, target)` returns a shortest
connecting entity sequence via BFS over the undirected relation graph, the
single-element path when the endpoints coincide, and `none` when the
entities are disconnected (§4.1). -/
def findPath (rels : List Relation) (start target : String) :
    Option (List String) :=
  if start = target then some [start]
  else
    bfsPaths rels target ((2 * rels.length + 2) * (2 * rels.length + 2))
      [[start]] [start]

/-- Order-preserving deduplication by a string key, as the `dedupe` helper
of both joinPlanner variants (a `Set` of already-seen keys). -/
def dedupeBy (key : α → String) : List α → List String → List α
  | [], _ => []
  | x :: r, seen =>
      if seen.contains (key x) then dedupeBy key r seen
      else x :: dedupeBy key r (key x :: seen)

/-- The joinPlanner `dedupe(arr, keyFn)` helper. -/
def dedupe (key : α → String) (l : List α) : List α := dedupeBy key l []

/-- First relation connecting `a` and `b` in either direction
(`RELATIONS.find(...)`). -/
def relFind (rels : List Relation) (a b : String) : Option Relation :=
  rels.find? (fun r =>
    (r.fromE == a && r.toE == b) || (r.fromE == b && r.toE == a))

/-- Consecutive pairs of a path. -/
def consecPairs : List String → List (String × String)
  | a :: b :: t => (a, b) :: consecPairs (b :: t)
  | _ => []

/-- A request filter as the routes receive it. -/
structure RFilter where
  collection : String
  field : String
  operator : String
  value : JSValue

/-- A join edge of the document variant of `buildJoinPlan`:
`{from: b, localField, foreignField, as: b}`. -/
structure MJoin where
  fromC : String
  localField : String
  foreignField : String
  asC : String
deriving DecidableEq

/-- Document-variant join edge for one consecutive path pair `(a, b)`; the
relation is oriented by whether its declared `from` side is `a`.  (For
graph-derived paths the relation lookup always succeeds; a failed lookup
would throw in JS and contributes nothing here.) -/
def mongoEdge (a b : String) : Option MJoin :=
  (relFind RELATIONS a b).map (fun rel =>
    if rel.fromE = a then ⟨b, rel.localK, rel.foreignK, b⟩
    else ⟨b, rel.foreignK, rel.localK, b⟩)

/-- The edges the document `buildJoinPlan` accumulates before deduplication. -/
def buildJoinPlanRawM (root : String) (fs : List RFilter) : List MJoin :=
  fs.foldl (fun acc f =>
    if f.collection = root then acc
    else
      match findPath RELATIONS root f.collection with
      | none => acc
      | some path =>
          acc ++ (consecPairs path).filterMap (fun ab => mongoEdge ab.1 ab.2)) []

/-- Dedupe key of the document variant:
`` `${j.from}:${j.localField}:${j.foreignField}` ``. -/
def mjoinKey (j : MJoin) : String :=
  j.fromC ++ ":" ++ j.localField ++ ":" ++ j.foreignField

/-- Document-variant `buildJoinPlan` (src/unnamed/part_002). -/
def buildJoinPlanM (root : String) (fs : List RFilter) : List MJoin :=
  dedupe mjoinKey (buildJoinPlanRawM root fs)

/-- A join edge of the tabular variant of `buildJoinPlan`:
`{from: "a.key", to: "b.key", type: 'INNER'}`. -/
structure SQLJoin where
  fromS : String
  toS : String
  typeS : String
deriving DecidableEq

/-- Tabular-variant join edge for one consecutive path pair `(a, b)`. -/
def sqlEdge (a b : String) : Option SQLJoin :=
  (relFind RELATIONS a b).map (fun rel =>
    if rel.fromE = a then
      ⟨a ++ "." ++ rel.localK, b ++ "." ++ rel.foreignK, "INNER"⟩
    else ⟨a ++ "." ++ rel.foreignK, b ++ "." ++ rel.localK, "INNER"⟩)

/-- The edges the tabular `buildJoinPlan` accumulates before deduplication. -/
def buildJoinPlanRawSQL (root : String) (fs : List RFilter) : List SQLJoin :=
  fs.foldl (fun acc f =>
    if f.collection = root then acc
    else
      match findPath RELATIONS root f.collection with
      | none => acc
      | some path =>
          acc ++ (consecPairs path).filterMap (fun ab => sqlEdge ab.1 ab.2)) []

/-- Dedupe key of the tabular variant.  The source interpolates
`` `${j.from}:${j.localField}:${j.foreignField}` `` but tabular join records
carry no `localField`/`foreignField`, so both interpolate as the string
`undefined`: the key degenerates to the `from` column alone. -/
def sqlJoinKey (j : SQLJoin) : String := j.fromS ++ ":undefined:undefined"

/-- Tabular-variant `buildJoinPlan` (Dynamic-Dashboard-SQL/joinPlanner.js). -/
def buildJoinPlanSQL (root : String) (fs : List RFilter) : List SQLJoin :=
  dedupe sqlJoinKey (buildJoinPlanRawSQL root fs)

/-! ### Document backend route (relations.js server) -/

/-- Prefix test on character lists. -/
def listStarts : List Char → List Char → Bool
  | _, [] => true
  | [], _ :: _ => false
  | h :: t, n :: m => h = n && listStarts t m

/-- Substring test on character lists. -/
def hasSubList (hay needle : List Char) : Bool :=
  if listStarts hay needle then true
  else
    match hay with
    | [] => false
    | _ :: t => hasSubList t needle

/-- JS `hay.includes(sub)`. -/
def strIncludes (hay sub : String) : Bool := hasSubList hay.data sub.data

/-- JS `[...new Set(xs)]`: first-seen-order deduplication. -/
def dedupStr (l : List String) : List String := dedupe id l

/-- Source `resolveRoot` (document backend): prefer `invoices` whenever it is
filtered, whenever several collections are filtered, or whenever the single
filtered collection is related to invoices; otherwise the single filtered
collection, defaulting to `invoices`. -/
def resolveRoot (fs : List RFilter) : String :=
  let cols := dedupStr (fs.map (fun f => f.collection))
  if cols.contains "invoices" then "invoices"
  else if 1 < cols.length then "invoices"
  else if cols.length = 1
      && (["customers", "products", "categories"].contains (cols.headD ""))
    then "invoices"
  else
    match cols with
    | [] => "invoices"
    | c :: _ => if c = "" then "invoices" else c

/-- Source `resolveFieldPath`. -/
def resolveFieldPath (root coll fld : String) : String :=
  if coll = root then fld else coll ++ "." ++ fld

/-- The normalised match filter the routes build from a request filter. -/
def toMatchFilter (root : String) (f : RFilter) : MatchFilter :=
  ⟨resolveFieldPath root f.collection f.field, f.operator, f.value⟩

/-- The aggregation operator tags the routes special-case. -/
def aggTags : List String := ["sum", "avg", "min", "max", "count"]

/-- Whether a request filter value is a non-null, non-array object. -/
def isPlainObject : JSValue → Bool
  | vObj _ => true
  | _ => false

/-- Source `validateFilter` (document backend): collection whitelist, field
character check, operator whitelist, and rejection of object values. -/
def validateFilter (f : RFilter) : Except String Unit :=
  if !(["invoices", "customers", "products", "categories"].contains
      f.collection) then
    .error ("Invalid collection: " ++ f.collection)
  else if strIncludes f.field "$" || strIncludes f.field "." then
    .error ("Invalid field name: " ++ f.field)
  else if !(["eq", "ne", "gt", "gte", "lt", "lte", "contains", "startsWith",
      "endsWith", "between", "in", "regex", "sum", "avg", "min", "max",
      "count"].contains f.operator) then
    .error ("Invalid operator: " ++ f.operator)
  else if isPlainObject f.value then
    .error "Object values not allowed for security reasons"
  else .ok ()

/-- Match filters of the regular (no-aggregation) path of `POST /query`:
the filters are mapped to field-path form with no further filtering. -/
def regularMatchFilters (fs : List RFilter) : List MatchFilter :=
  fs.map (toMatchFilter (resolveRoot fs))

/-- Match filters both pipeline builders construct: mapped to field-path
form, then aggregation-tagged entries are filtered out. -/
def strippedMatchFilters (fs : List RFilter) : List MatchFilter :=
  (fs.map (toMatchFilter (resolveRoot fs))).filter
    (fun f => !aggTags.contains f.operator)

/-- A `$group` accumulator: `{$sum: 1}` for counts, `{$op: "$field"}`
otherwise. -/
inductive GAcc where
  | gSumOne : GAcc
  | gField : String → String → GAcc
deriving DecidableEq

/-- The body of a `$group` stage besides its null `_id`. -/
abbrev GroupSpec := List (String × GAcc)

/-- Keyed update of a group stage object. -/
def gsSet (o : GroupSpec) (k : String) (v : GAcc) : GroupSpec :=
  match o with
  | [] => [(k, v)]
  | (k', v') :: r => if k' = k then (k, v) :: r else (k', v') :: gsSet r k v

/-- An aggregation operation of a request. -/
structure AggOp where
  collection : String
  field : String
  operator : String
  aliasName : Option String

/-- The `$group` stage body `buildAggregationPipeline` assembles: `count`
becomes `{$sum: 1}` under alias-or-`count`; `sum`/`avg`/`min`/`max` become
`{$op: "$fieldpath"}` under alias-or-operator; other tags contribute
nothing. -/
def groupSpecOf (root : String) (aggs : List AggOp) : GroupSpec :=
  aggs.foldl (fun acc op =>
    if op.operator = "count" then
      gsSet acc (op.aliasName.getD "count") .gSumOne
    else if ["sum", "avg", "min", "max"].contains op.operator then
      gsSet acc (op.aliasName.getD op.operator)
        (.gField ("$" ++ op.operator)
          ("$" ++ resolveFieldPath root op.collection op.field))
    else acc) []

/-- An aggregation pipeline stage as the document route emits it. -/
inductive Stage where
  | lookupSt : String → String → String → String → Stage
  | unwindSt : String → Stage
  | matchSt : List (String × MCond) → Stage
  | groupSt : GroupSpec → Stage

/-- The `$lookup`/`$unwind` stage pairs for a join plan. -/
def joinStages (joins : List MJoin) : List Stage :=
  joins.foldl (fun acc j =>
    acc ++ [.lookupSt j.fromC j.localField j.foreignField j.asC,
      .unwindSt ("$" ++ j.asC)]) []

/-- Source `buildDetailedRecordsPipeline`: joins, then (for a non-empty
filter list whose stripped match filters are non-empty) one `$match` stage
built by `buildMatch`; a `buildMatch` throw propagates. -/
def buildDetailedRecordsPipeline (fs : List RFilter) :
    Except MErr (List Stage) :=
  let root := resolveRoot fs
  let base := joinStages (buildJoinPlanM root fs)
  if 0 < fs.length then
    let mf := strippedMatchFilters fs
    if 0 < mf.length then
      (buildMatch mf).map (fun m => base ++ [.matchSt m])
    else .ok base
  else .ok base

/-- Source `buildAggregationPipeline`: the same join and `$match` prefix as
the detailed pipeline, then (for a non-empty aggregation list) one `$group`
stage holding every aggregation operation. -/
def buildAggregationPipeline (fs : List RFilter) (aggs : List AggOp) :
    Except MErr (List Stage) :=
  let root := resolveRoot fs
  let base := joinStages (buildJoinPlanM root fs)
  let pre :=
    if 0 < fs.length then
      let mf := strippedMatchFilters fs
      if 0 < mf.length then
        (buildMatch mf).map (fun m => base ++ [.matchSt m])
      else .ok base
    else .ok base
  if 0 < aggs.length then
    pre.map (fun p => p ++ [.groupSt (groupSpecOf root aggs)])
  else pre

/-- The catch handler of `POST /query`: messages mentioning `Invalid` or
`validation` are surfaced as 400 with the message; everything else becomes
an opaque 500 `Internal server error`. -/
def mongoCatchResponse (msg : String) : Nat × String :=
  if strIncludes msg "Invalid" || strIncludes msg "validation" then (400, msg)
  else (500, "Internal server error")

/-! ### Model of the document engine's pipeline evaluation (for C6) -/

/-- A stored document. -/
abbrev Doc := List (String × JSValue)

/-- Split a dotted field path. -/
def splitDotsAux : List Char → List Char → List String
  | [], cur => [String.mk cur.reverse]
  | c :: r, cur =>
      if c = '.' then String.mk cur.reverse :: splitDotsAux r []
      else splitDotsAux r (c :: cur)

/-- Dotted-path components of a field path. -/
def splitDots (s : String) : List String := splitDotsAux s.data []

/-- Read a value along a dotted path. -/
def getPathV (d : Doc) : List String → JSValue
  | [] => vObj d
  | [k] => objGetU d k
  | k :: rest =>
      match objGetU d k with
      | vObj d' => getPathV d' rest
      | _ => vUndef

/-- Read a document field by dotted path. -/
def docGetPath (d : Doc) (p : String) : JSValue := getPathV d (splitDots p)

/-- Ordering between two engine values when they are comparable. -/
def jsCmpO : JSValue → JSValue → Option Ordering
  | vNum a, vNum b => some (compare a b)
  | vStr a, vStr b => some (compare a b)
  | vDate a, vDate b => some (compare a b)
  | _, _ => none

/-- Model of the case-insensitive regex matching the translator emits:
`^p` anchors a prefix, `p$` a suffix, otherwise a substring test. -/
def regexMatchCI (pat s : String) : Bool :=
  let p := pat.data.map Char.toLower
  let t := s.data.map Char.toLower
  match p with
  | c :: pr =>
      if c = '^' then listStarts t pr
      else if p.getLast? = some '$' then listStarts t.reverse p.dropLast.reverse
      else hasSubList t p
  | [] => true

/-- Model of one operator key of a match condition applied to a document
field (only the keys the translator emits; `$options` is a modifier, not a
predicate). -/
def evalOpCond (d : Doc) (fieldPath : String) (op : String) (val : JSValue) :
    Bool :=
  let x := docGetPath d fieldPath
  if op = "$eq" then jsEq x val
  else if op = "$ne" then !jsEq x val
  else if op = "$gt" then jsCmpO x val == some .gt
  else if op = "$gte" then
    jsCmpO x val == some .gt || jsCmpO x val == some .eq
  else if op = "$lt" then jsCmpO x val == some .lt
  else if op = "$lte" then
    jsCmpO x val == some .lt || jsCmpO x val == some .eq
  else if op = "$in" then
    match val with
    | vArr xs => xs.any (jsEq x)
    | _ => false
  else if op = "$regex" then
    match val with
    | vStr p => regexMatchCI p (jsToStr x)
    | _ => false
  else true

/-- Whether a document satisfies a `$match` object. -/
def docMatches (m : List (String × MCond)) (d : Doc) : Bool :=
  m.all (fun fc => fc.2.all (fun ov => evalOpCond d fc.1 ov.1 ov.2))

/-- Numeric field values of a group input, for an accumulator path of the
form `$fieldpath`. -/
def numsAtPath (docs : List Doc) (p : String) : List ℚ :=
  docs.filterMap (fun d =>
    match docGetPath d (p.drop 1) with
    | vNum q => some q
    | _ => none)

/-- Value of one `$group` accumulator over the group's input documents. -/
def evalAcc (docs : List Doc) : GAcc → JSValue
  | .gSumOne => vNum docs.length
  | .gField op p =>
      let ns := numsAtPath docs p
      if op = "$sum" then vNum (ns.foldl (· + ·) 0)
      else if op = "$avg" then
        if ns.isEmpty then vNull else vNum (ns.foldl (· + ·) 0 / ns.length)
      else if op = "$min" then
        match ns with
        | [] => vNull
        | h :: t => vNum (t.foldl min h)
      else if op = "$max" then
        match ns with
        | [] => vNull
        | h :: t => vNum (t.foldl max h)
      else vNull

/-- Model of a `$group` stage with `_id: null`: the engine emits no group at
all for an empty input, and exactly one summary document otherwise. -/
def evalGroup (spec : GroupSpec) (docs : List Doc) : List Doc :=
  if docs.isEmpty then []
  else [("_id", vNull) :: spec.map (fun kg => (kg.1, evalAcc docs kg.2))]

/-- Model of one pipeline stage over the current document list (`$lookup`
joins on the key pair; `$unwind` flattens arrays and drops missing or empty
values; `$match` filters; `$group` summarises). -/
def evalStage (db : String → List Doc) (docs : List Doc) : Stage → List Doc
  | .lookupSt fromC lf ff asC =>
      docs.map (fun d =>
        objSet d asC (vArr ((db fromC).filterMap (fun fd =>
          if jsEq (objGetU fd ff) (objGetU d lf) then some (vObj fd)
          else none))))
  | .unwindSt path =>
      let asC := path.drop 1
      docs.flatMap (fun d =>
        match objGetU d asC with
        | vArr xs => xs.map (fun x => objSet d asC x)
        | vNull => []
        | vUndef => []
        | x => [objSet d asC x])
  | .matchSt m => docs.filter (docMatches m)
  | .groupSt spec => evalGroup spec docs

/-- Pipeline evaluation: stages applied left to right. -/
def evalPipeline (db : String → List Doc) (stages : List Stage)
    (docs : List Doc) : List Doc :=
  stages.foldl (evalStage db) docs

/-- The aggregate rows the document route returns for a request: the
aggregation pipeline run on the root collection. -/
def mongoAggregateRows (db : String → List Doc) (fs : List RFilter)
    (aggs : List AggOp) : Except MErr (List Doc) :=
  (buildAggregationPipeline fs aggs).map (fun st =>
    evalPipeline db st (db (resolveRoot fs)))

/-! ### Tabular backend: buildSQLFilter (filterBuilderSQL.js) -/

/-- Source `SQL_OPERATORS` object, as its key/value pairs. -/
def sqlOpsList : List (String × String) :=
  [("$eq", "="), ("$ne", "!="), ("$gt", ">"), ("$gte", ">="), ("$lt", "<"),
   ("$lte", "<="), ("$in", "IN"), ("$nin", "NOT IN"), ("$regex", "LIKE"),
   ("$exists", "IS NOT NULL"), ("$notexists", "IS NULL"), ("$and", "AND"),
   ("$or", "OR"), ("$not", "NOT")]

/-- Source `SQL_OPERATORS[op]` lookup. -/
def SQL_OPERATORS (op : String) : Option String :=
  (sqlOpsList.find? (fun p => p.1 == op)).map Prod.snd

/-- First pass of the source's pattern rewrite: every `.*` becomes `%`
(`replace(/\.\*/g, '%')`). -/
def replaceDotStar : List Char → List Char
  | '.' :: '*' :: r => '%' :: replaceDotStar r
  | c :: r => c :: replaceDotStar r
  | [] => []

/-- Second pass: every remaining `*` becomes `%` (`replace(/\*/g, '%')`). -/
def replaceStar (l : List Char) : List Char :=
  l.map (fun c => if c = '*' then '%' else c)

/-- The `$regex`-to-LIKE pattern rewrite of `buildSQLFilter`. -/
def regexToLike (s : String) : String :=
  String.mk (replaceStar (replaceDotStar s.data))

/-- JS `Array.prototype.join(sep)`. -/
def joinSep (sep : String) : List String → String
  | [] => ""
  | [x] => x
  | x :: r => x ++ sep ++ joinSep sep r

/-- The `?` placeholder list for an IN/NOT IN array. -/
def placeholdersFor (xs : List JSValue) : String :=
  joinSep ", " (xs.map (fun _ => "?"))

/-- One operator entry of `buildCondition`'s loop over an object value: a
key absent from `SQL_OPERATORS` is silently skipped; `$in`/`$nin` need an
array and expand to a placeholder list; `$regex` needs a string and becomes
a LIKE with rewritten pattern; anything else is `column op ?`. -/
def bcStep (k : String) (acc : List String × List JSValue)
    (opv : String × JSValue) : List String × List JSValue :=
  match SQL_OPERATORS opv.1 with
  | none => acc
  | some sqlOp =>
      if opv.1 = "$in" ∨ opv.1 = "$nin" then
        match opv.2 with
        | vArr arr =>
            (acc.1 ++ [k ++ " " ++ sqlOp ++ " (" ++ placeholdersFor arr
              ++ ")"], acc.2 ++ arr)
        | _ => acc
      else if opv.1 = "$regex" then
        match opv.2 with
        | vStr s =>
            (acc.1 ++ [k ++ " LIKE ?"], acc.2 ++ [vStr (regexToLike s)])
        | _ => acc
      else (acc.1 ++ [k ++ " " ++ sqlOp ++ " ?"], acc.2 ++ [opv.2])

/-- Source `buildCondition` for one non-logical filter entry (always called
with an empty prefix, so the column is the key itself): null/undefined is
skipped; an object value walks its operator keys; any other value is a
direct equality. -/
def buildCondition (k : String) (v : JSValue) : List String × List JSValue :=
  match v with
  | vNull => ([], [])
  | vUndef => ([], [])
  | vObj ops => ops.foldl (bcStep k) ([], [])
  | v => ([k ++ " = ?"], [v])

/-- The child fold of a `$and`/`$or` entry: each array element is translated
by `rec`; a child's parenthesised fragment and parameters are kept exactly
when its clause is non-empty. -/
def sqlChildrenWith (rec : JSValue → String × List JSValue)
    (xs : List JSValue) : List String × List JSValue :=
  xs.foldl (fun ac x =>
    if (rec x).1 ≠ "" then (ac.1 ++ ["(" ++ (rec x).1 ++ ")"], ac.2 ++ (rec x).2)
    else ac) ([], [])

/-- One filter entry of `buildSQLFilter`'s main loop: `$and`/`$or` entries
with array values recurse via `rec` and join the child fragments; other
`$`-keys contribute nothing; plain keys go through `buildCondition`. -/
def sqlStepWith (rec : JSValue → String × List JSValue)
    (acc : List String × List JSValue) (kv : String × JSValue) :
    List String × List JSValue :=
  if listStarts kv.1.data "$".data then
    if kv.1 = "$and" then
      match kv.2 with
      | vArr xs =>
          (if (sqlChildrenWith rec xs).1 ≠ [] then
            acc.1 ++ [joinSep " AND " (sqlChildrenWith rec xs).1] else acc.1,
            acc.2 ++ (sqlChildrenWith rec xs).2)
      | _ => acc
    else if kv.1 = "$or" then
      match kv.2 with
      | vArr xs =>
          (if (sqlChildrenWith rec xs).1 ≠ [] then
            acc.1 ++ [joinSep " OR " (sqlChildrenWith rec xs).1] else acc.1,
            acc.2 ++ (sqlChildrenWith rec xs).2)
      | _ => acc
    else acc
  else
    (acc.1 ++ (buildCondition kv.1 kv.2).1, acc.2 ++ (buildCondition kv.1 kv.2).2)

/-- Fuelled form of source `buildSQLFilter`: an empty or non-object filter
yields no clause; otherwise each entry is processed by the main loop and the
collected fragments are joined with AND under a `WHERE` prefix.  The fuel
only bounds the `$and`/`$or` nesting depth; the wrapper below always
supplies enough. -/
def buildSQLFilterF : Nat → JSValue → String × List JSValue
  | 0, _ => ("", [])
  | fuel + 1, filter =>
      match filter with
      | vObj entries =>
          if entries.isEmpty then ("", [])
          else
            (if (entries.foldl (sqlStepWith (buildSQLFilterF fuel))
                ([], [])).1 ≠ [] then
              "WHERE " ++ joinSep " AND "
                (entries.foldl (sqlStepWith (buildSQLFilterF fuel))
                  ([], [])).1
            else "",
              (entries.foldl (sqlStepWith (buildSQLFilterF fuel)) ([], [])).2)
      | _ => ("", [])

mutual

/-- Structural size of an embedded JS value (bounds `$and`/`$or` nesting). -/
def jsSize : JSValue → Nat
  | vArr xs => 1 + jsSizeL xs
  | vObj fs => 1 + jsSizeO fs
  | _ => 1

/-- Structural size of a JS array body. -/
def jsSizeL : List JSValue → Nat
  | [] => 0
  | x :: r => jsSize x + jsSizeL r + 1

/-- Structural size of a JS object body. -/
def jsSizeO : List (String × JSValue) → Nat
  | [] => 0
  | kv :: r => jsSize kv.2 + jsSizeO r + 1

end

/-- Source `buildSQLFilter`: the wrapper supplies one fuel unit more than
the value's size, which exceeds any `$and`/`$or` nesting depth. -/
def buildSQLFilter (f : JSValue) : String × List JSValue :=
  buildSQLFilterF (jsSize f + 1) f

/-- Number of `?` placeholders in a SQL fragment. -/
def countQ (s : String) : Nat := s.data.countP (fun c => c = '?')

/-- Total placeholder count of a fragment list. -/
def sumQ (l : List String) : Nat := (l.map countQ).sum

/-! ### Placeholder/parameter alignment of buildSQLFilter (claim C5) -/

mutual

/-- No object key anywhere in the value contains a `?` character (schema
identifiers never do; a `?` inside a column name would read as an extra
statement placeholder). -/
def noQKeys : JSValue → Bool
  | vArr xs => noQKeysL xs
  | vObj fs => noQKeysO fs
  | _ => true

/-- Predicate `noQKeys` over an array body. -/
def noQKeysL : List JSValue → Bool
  | [] => true
  | x :: r => noQKeys x && noQKeysL r

/-- Predicate `noQKeys` over an object body. -/
def noQKeysO : List (String × JSValue) → Bool
  | [] => true
  | kv :: r => (countQ kv.1 == 0) && noQKeys kv.2 && noQKeysO r

end

theorem countQ_append (a b : String) : countQ (a ++ b) = countQ a + countQ b := by
  simp [countQ, String.data_append, List.countP_append]

theorem sumQ_nil : sumQ [] = 0 := rfl

theorem sumQ_cons (x : String) (l : List String) :
    sumQ (x :: l) = countQ x + sumQ l := by simp [sumQ]

theorem sumQ_append (a b : List String) : sumQ (a ++ b) = sumQ a + sumQ b := by
  simp [sumQ]

theorem countQ_joinSep (sep : String) (hsep : countQ sep = 0) :
    ∀ l, countQ (joinSep sep l) = sumQ l
  | [] => by simp [joinSep, countQ, sumQ]
  | [x] => by simp [joinSep, sumQ]
  | x :: y :: r => by
      have ih := countQ_joinSep sep hsep (y :: r)
      show countQ (x ++ sep ++ joinSep sep (y :: r)) = _
      rw [countQ_append, countQ_append, hsep, ih]
      simp [sumQ]

theorem countQ_placeholders (xs : List JSValue) :
    countQ (placeholdersFor xs) = xs.length := by
  rw [placeholdersFor, countQ_joinSep _ (by decide)]
  induction xs with
  | nil => simp [sumQ]
  | cons x r ih =>
      rw [List.map_cons, sumQ_cons, ih, List.length_cons]
      have : countQ "?" = 1 := by decide
      omega

theorem countQ_sqlOp {op s : String} (h : SQL_OPERATORS op = some s) :
    countQ s = 0 := by
  rw [SQL_OPERATORS] at h
  rcases hf : sqlOpsList.find? (fun p => p.1 == op) with _ | p
  · rw [hf] at h; exact Option.noConfusion h
  · rw [hf] at h
    have hmem : p ∈ sqlOpsList := List.mem_of_find?_eq_some hf
    have hall : sqlOpsList.all (fun q => countQ q.2 == 0) = true := by decide
    have hp := (List.all_eq_true.mp hall) p hmem
    simp at hp h
    rw [← h]
    exact hp

theorem bcStep_inv {k : String} (hk : countQ k = 0)
    {acc : List String × List JSValue} (hacc : sumQ acc.1 = acc.2.length)
    (opv : String × JSValue) :
    sumQ (bcStep k acc opv).1 = (bcStep k acc opv).2.length := by
  obtain ⟨op, ov⟩ := opv
  rcases hop : SQL_OPERATORS op with _ | sqlOp
  · simp only [bcStep, hop]; exact hacc
  have hs : countQ sqlOp = 0 := countQ_sqlOp hop
  have h1 : countQ " " = 0 := by decide
  have h2 : countQ " (" = 0 := by decide
  have h3 : countQ ")" = 0 := by decide
  have h4 : countQ " LIKE ?" = 1 := by decide
  have h5 : countQ " ?" = 1 := by decide
  simp only [bcStep, hop]
  by_cases hin : op = "$in" ∨ op = "$nin"
  · rw [if_pos hin]
    cases ov <;> first
      | exact hacc
      | (simp [sumQ_append, sumQ_cons, sumQ_nil, countQ_append,
           countQ_placeholders, hk, hs, h1, h2, h3, hacc])
  · rw [if_neg hin]
    by_cases hre : op = "$regex"
    · rw [if_pos hre]
      cases ov <;> first
        | exact hacc
        | (simp [sumQ_append, sumQ_cons, sumQ_nil, countQ_append, hk, h4,
             hacc])
    · rw [if_neg hre]
      simp [sumQ_append, sumQ_cons, sumQ_nil, countQ_append, hk, hs, h1, h5,
        hacc]

theorem buildCondition_inv {k : String} (hk : countQ k = 0) (v : JSValue) :
    sumQ (buildCondition k v).1 = (buildCondition k v).2.length := by
  have hq1 : countQ " = ?" = 1 := by decide
  cases v with
  | vObj ops =>
      rw [buildCondition]
      suffices hgen : ∀ (l : List (String × JSValue))
          (acc : List String × List JSValue), sumQ acc.1 = acc.2.length →
          sumQ (l.foldl (bcStep k) acc).1
            = (l.foldl (bcStep k) acc).2.length by
        exact hgen ops ([], []) (by simp [sumQ])
      intro l
      induction l with
      | nil => intro acc hacc; simpa using hacc
      | cons opv r ih =>
          intro acc hacc
          exact ih _ (bcStep_inv hk hacc opv)
  | vNull => simp [buildCondition, sumQ]
  | vUndef => simp [buildCondition, sumQ]
  | _ =>
      simp [buildCondition, sumQ_cons, sumQ_nil, countQ_append, hk, hq1]

theorem sqlChildren_inv (rec : JSValue → String × List JSValue)
    (hrec : ∀ x, noQKeys x = true →
      countQ (rec x).1 = (rec x).2.length)
    (xs : List JSValue) (hxs : noQKeysL xs = true) :
    sumQ (sqlChildrenWith rec xs).1 = (sqlChildrenWith rec xs).2.length := by
  rw [sqlChildrenWith]
  suffices hgen : ∀ (l : List JSValue), noQKeysL l = true →
      ∀ (acc : List String × List JSValue), sumQ acc.1 = acc.2.length →
      sumQ (l.foldl (fun ac x =>
        if (rec x).1 ≠ "" then
          (ac.1 ++ ["(" ++ (rec x).1 ++ ")"], ac.2 ++ (rec x).2)
        else ac) acc).1
      = (l.foldl (fun ac x =>
        if (rec x).1 ≠ "" then
          (ac.1 ++ ["(" ++ (rec x).1 ++ ")"], ac.2 ++ (rec x).2)
        else ac) acc).2.length by
    exact hgen xs hxs ([], []) (by simp [sumQ])
  intro l
  induction l with
  | nil => intro _ acc hacc; simpa using hacc
  | cons x r ih =>
      intro hl acc hacc
      rw [noQKeysL] at hl
      simp only [Bool.and_eq_true] at hl
      rw [List.foldl_cons]
      refine ih hl.2 _ ?_
      by_cases hne : (rec x).1 ≠ ""
      · rw [if_pos hne, sumQ_append, sumQ_cons, sumQ_nil, List.length_append,
          countQ_append, countQ_append, hrec x hl.1, hacc]
        have h1 : countQ "(" = 0 := by decide
        have h2 : countQ ")" = 0 := by decide
        omega
      · rw [if_neg hne]
        exact hacc

theorem sqlStep_inv (rec : JSValue → String × List JSValue)
    (hrec : ∀ x, noQKeys x = true → countQ (rec x).1 = (rec x).2.length)
    {acc : List String × List JSValue} (hacc : sumQ acc.1 = acc.2.length)
    (kv : String × JSValue) (hkey : countQ kv.1 = 0)
    (hval : noQKeys kv.2 = true) :
    sumQ (sqlStepWith rec acc kv).1 = (sqlStepWith rec acc kv).2.length := by
  obtain ⟨key, val⟩ := kv
  simp only at hkey hval
  by_cases hdol : listStarts key.data "$".data
  · by_cases hand : key = "$and"
    · cases val <;> simp only [sqlStepWith, if_pos hdol, if_pos hand] <;>
        first
        | exact hacc
        | (rename_i xs
           have hinv := sqlChildren_inv rec hrec xs hval
           show sumQ (if (sqlChildrenWith rec xs).1 ≠ [] then
               acc.1 ++ [joinSep " AND " (sqlChildrenWith rec xs).1]
             else acc.1) = (acc.2 ++ (sqlChildrenWith rec xs).2).length
           by_cases hz : (sqlChildrenWith rec xs).1 ≠ []
           · rw [if_pos hz, sumQ_append, sumQ_cons, sumQ_nil,
               countQ_joinSep " AND " (by decide), List.length_append, hacc,
               hinv]
             omega
           · rw [if_neg hz]
             simp only [ne_eq, Decidable.not_not] at hz
             rw [hz, sumQ_nil] at hinv
             have hz2 : (sqlChildrenWith rec xs).2 = [] :=
               List.length_eq_zero.mp hinv.symm
             rw [hz2]
             simpa using hacc)
    · by_cases hor : key = "$or"
      · cases val <;>
          simp only [sqlStepWith, if_pos hdol, if_neg hand, if_pos hor] <;>
          first
          | exact hacc
          | (rename_i xs
             have hinv := sqlChildren_inv rec hrec xs hval
             show sumQ (if (sqlChildrenWith rec xs).1 ≠ [] then
                 acc.1 ++ [joinSep " OR " (sqlChildrenWith rec xs).1]
               else acc.1) = (acc.2 ++ (sqlChildrenWith rec xs).2).length
             by_cases hz : (sqlChildrenWith rec xs).1 ≠ []
             · rw [if_pos hz, sumQ_append, sumQ_cons, sumQ_nil,
                 countQ_joinSep " OR " (by decide), List.length_append, hacc,
                 hinv]
               omega
             · rw [if_neg hz]
               simp only [ne_eq, Decidable.not_not] at hz
               rw [hz, sumQ_nil] at hinv
               have hz2 : (sqlChildrenWith rec xs).2 = [] :=
                 List.length_eq_zero.mp hinv.symm
               rw [hz2]
               simpa using hacc)
      · simp only [sqlStepWith, if_pos hdol, if_neg hand, if_neg hor]
        exact hacc
  · simp only [sqlStepWith, if_neg hdol]
    have hbc := buildCondition_inv hkey val
    show sumQ (acc.1 ++ (buildCondition key val).1)
      = (acc.2 ++ (buildCondition key val).2).length
    rw [sumQ_append, List.length_append, hacc, hbc]

/-- Placeholder/parameter alignment for the fuelled translator: for every
filter whose object keys are `?`-free, the number of `?` placeholders in the
emitted clause equals the number of emitted parameters. -/
theorem countQ_buildSQLFilterF :
    ∀ (fuel : Nat) (f : JSValue), noQKeys f = true →
    countQ (buildSQLFilterF fuel f).1 = (buildSQLFilterF fuel f).2.length := by
  intro fuel
  induction fuel with
  | zero => intro f _; simp [buildSQLFilterF, countQ]
  | succ fuel ih =>
      intro f hf
      cases f
      all_goals try (simp [buildSQLFilterF, countQ]; done)
      rename_i entries
      rw [noQKeys] at hf
      simp only [buildSQLFilterF]
      by_cases hemp : entries.isEmpty
      · rw [if_pos hemp]; simp [countQ]
      rw [if_neg hemp]
      have hfold : ∀ (l : List (String × JSValue)), noQKeysO l = true →
          ∀ (acc : List String × List JSValue), sumQ acc.1 = acc.2.length →
          sumQ (l.foldl (sqlStepWith (buildSQLFilterF fuel)) acc).1
            = (l.foldl (sqlStepWith (buildSQLFilterF fuel)) acc).2.length := by
        intro l
        induction l with
        | nil => intro _ acc hacc; simpa using hacc
        | cons kv r ihl =>
            intro hl acc hacc
            rw [noQKeysO] at hl
            simp only [Bool.and_eq_true, beq_iff_eq] at hl
            exact ihl hl.2 _ (sqlStep_inv _ ih hacc kv hl.1.1 hl.1.2)
      have hcp := hfold entries hf ([], []) (by simp [sumQ])
      show countQ (if (entries.foldl (sqlStepWith (buildSQLFilterF fuel))
            ([], [])).1 ≠ [] then
          "WHERE " ++ joinSep " AND "
            (entries.foldl (sqlStepWith (buildSQLFilterF fuel)) ([], [])).1
        else "")
        = (entries.foldl (sqlStepWith (buildSQLFilterF fuel)) ([], [])).2.length
      by_cases hne : (entries.foldl (sqlStepWith (buildSQLFilterF fuel))
          ([], [])).1 ≠ []
      · rw [if_pos hne, countQ_append, countQ_joinSep " AND " (by decide),
          hcp]
        have h1 : countQ "WHERE " = 0 := by decide
        omega
      · rw [if_neg hne]
        simp only [ne_eq, Decidable.not_not] at hne
        rw [hne, sumQ_nil] at hcp
        have h0 : countQ "" = 0 := by decide
        omega

/-! ### Tabular backend route conversion and aggregation executor -/

/-- Source `validateFilter` of the tabular server (db.js): table whitelist,
backtick/semicolon field check, operator whitelist, object-value rejection. -/
def validateFilterSQL (f : RFilter) : Except String Unit :=
  if !(["invoices", "customers", "products", "categories"].contains
      f.collection) then
    .error ("Invalid table: " ++ f.collection)
  else if strIncludes f.field "`" || strIncludes f.field ";" then
    .error ("Invalid field name: " ++ f.field)
  else if !(["eq", "ne", "gt", "gte", "lt", "lte", "contains", "startsWith",
      "endsWith", "between", "in", "regex", "sum", "avg", "min", "max",
      "count"].contains f.operator) then
    .error ("Invalid operator: " ++ f.operator)
  else if isPlainObject f.value then
    .error "Object values not allowed for security reasons"
  else .ok ()

/-- One step of the tabular route's filter conversion: an aggregation-tagged
filter is routed to the aggregation list; any other filter adds
`sqlFilter[fieldPath]["$" ++ op] = value`. -/
def sqlConvStep (root : String) (acc : List (String × JSValue)) (f : RFilter) :
    List (String × JSValue) :=
  if aggTags.contains f.operator then acc
  else
    let fp := resolveFieldPath root f.collection f.field
    objSet acc fp
      (vObj (objSet (match objGetO acc fp with
        | some (vObj o) => o
        | _ => []) ("$" ++ f.operator) f.value))

/-- The `sqlFilter` object the tabular `POST /query` route builds from the
request filters (aggregation-tagged entries are diverted, never added). -/
def sqlFilterObjOf (root : String) (fs : List RFilter) :
    List (String × JSValue) :=
  fs.foldl (sqlConvStep root) []

/-- The aggregation operations the tabular route collects from
aggregation-tagged filters. -/
def sqlAggOpsOf (root : String) (fs : List RFilter) :
    List (String × String × String) :=
  (fs.filter (fun f => aggTags.contains f.operator)).map (fun f =>
    (f.operator, resolveFieldPath root f.collection f.field,
      f.operator ++ "_"
        ++ String.mk ((resolveFieldPath root f.collection f.field).data.map
          (fun c => if c = '.' then '_' else c))))

/-- A tabular query plan (`{tables, joins, projection}`). -/
structure SQLPlan where
  tables : List String
  joins : List SQLJoin
  projection : List String

/-- One aggregation operation as `executeAggregations` receives it. -/
structure SQLAgg where
  operation : String
  field : String
  aliasName : Option String

/-- The alias of an aggregation result entry:
`` alias || `${operation}_${field.replace(/\./g, '_')}` ``. -/
def sqlAggAlias (agg : SQLAgg) : String :=
  agg.aliasName.getD (agg.operation ++ "_"
    ++ String.mk (agg.field.data.map (fun c => if c = '.' then '_' else c)))

/-- The aggregation SELECT expression, or the `Unsupported aggregation
operation` error thrown for an unknown operation. -/
def sqlAggExpr (agg : SQLAgg) : Except String String :=
  let op := String.mk (agg.operation.data.map Char.toLower)
  if op = "count" then
    .ok (if agg.field = "*" then "COUNT(*)" else "COUNT(" ++ agg.field ++ ")")
  else if op = "sum" then .ok ("SUM(" ++ agg.field ++ ")")
  else if op = "avg" then .ok ("AVG(" ++ agg.field ++ ")")
  else if op = "min" then .ok ("MIN(" ++ agg.field ++ ")")
  else if op = "max" then .ok ("MAX(" ++ agg.field ++ ")")
  else .error ("Unsupported aggregation operation: " ++ agg.operation)

/-- The JOIN clause text for a plan's joins (invalid-format joins are
skipped with a warning only). -/
def sqlJoinClause (joins : List SQLJoin) : String :=
  joinSep " " ((joins.map (fun j =>
    j.typeS ++ " JOIN " ++ (splitDots j.toS).headD "" ++ " ON " ++ j.fromS
      ++ " = " ++ j.toS)).filter (fun c => c ≠ ""))

/-- The FROM/JOIN/WHERE tail shared by every per-operation aggregation
query of one request (built from the same plan and filter each iteration). -/
def sqlAggTail (plan : SQLPlan) (filter : JSValue) : String :=
  " FROM " ++ plan.tables.headD ""
    ++ (if 0 < plan.joins.length then " " ++ sqlJoinClause plan.joins else "")
    ++ (if (buildSQLFilter filter).1 ≠ "" then " " ++ (buildSQLFilter filter).1
        else "")

/-- The SQL text and parameters of one aggregation query. -/
def sqlAggQuery (plan : SQLPlan) (filter : JSValue) (agg : SQLAgg) :
    Except String (String × List JSValue) :=
  (sqlAggExpr agg).map (fun expr =>
    ("SELECT " ++ expr ++ " as " ++ sqlAggAlias agg ++ sqlAggTail plan filter,
      (buildSQLFilter filter).2))

/-- One entry of the aggregation result list returned to the caller. -/
structure AggEntry where
  operation : String
  field : String
  aliasName : String
  value : Option JSValue
  errMsg : Option String

/-- Source `executeAggregations` with the database driver abstracted as
`dbExec`: each operation runs its own query over the same plan and filter;
a thrown error (unsupported operation, or a driver failure) is caught and
recorded in that entry's `error` field — the raw message, with `value:
null`; a successful query contributes the first cell of its first row. -/
def executeAggregations (dbExec : String → List JSValue →
    Except String (List Doc)) (aggs : List SQLAgg) (plan : SQLPlan)
    (filter : JSValue) : List AggEntry :=
  aggs.map (fun agg =>
    match sqlAggQuery plan filter agg with
    | .error e =>
        ⟨agg.operation, agg.field, sqlAggAlias agg, none, some e⟩
    | .ok (q, ps) =>
        match dbExec q ps with
        | .error e =>
            ⟨agg.operation, agg.field, sqlAggAlias agg, none, some e⟩
        | .ok rows =>
            ⟨agg.operation, agg.field, sqlAggAlias agg,
              (rows.headD []).headD ("", vNull) |>.2 |> some, none⟩)

/-! ### Result enhancer (document backend, claim C9) -/

/-- The fixed foreign-key-to-collection mapping of
`enhanceResultsWithJoinedFields`. -/
def idFieldMappings : List (String × String) :=
  [("customer_id", "customers"), ("product_id", "products"),
   ("category_id", "categories")]

/-- One mapping entry of the enhancer applied to a row: when the row
carries a truthy value under the id field and the referenced document is
found, attach the `<collection>_name` decoration (name, title, label or
`_id`, with a redundant second write of `name`), and
`customer_region`/`customer_zone` when present; a missing document (or a
lookup failure, caught and only logged in the source) leaves the row
unchanged. -/
def enhanceOne (dbFind : String → JSValue → Option Doc) (acc : Doc)
    (idField coll : String) : Doc :=
  match objGetO acc idField with
  | none => acc
  | some idv =>
      if jsTruthy idv then
        match dbFind coll idv with
        | none => acc
        | some doc =>
            let nameField := jsOr (objGetU doc "name") (jsOr
              (objGetU doc "title") (jsOr (objGetU doc "label")
                (objGetU doc "_id")))
            let a1 := objSet acc (coll ++ "_name") nameField
            let a2 := if jsTruthy (objGetU doc "name") then
                objSet a1 (coll ++ "_name") (objGetU doc "name")
              else a1
            let a3 := if jsTruthy (objGetU doc "region") then
                objSet a2 "customer_region" (objGetU doc "region")
              else a2
            if jsTruthy (objGetU doc "zone") then
              objSet a3 "customer_zone" (objGetU doc "zone")
            else a3
      else acc

/-- The enhancer applied to one row: the row is copied and each id-field
mapping is applied in order. -/
def enhanceRecord (dbFind : String → JSValue → Option Doc) (r : Doc) : Doc :=
  idFieldMappings.foldl (fun acc kv => enhanceOne dbFind acc kv.1 kv.2) r

/-- Source `enhanceResultsWithJoinedFields` with the lookups abstracted as
`dbFind`: one output row per input row, in order. -/
def enhanceResultsWithJoinedFields (dbFind : String → JSValue → Option Doc)
    (rows : List Doc) : List Doc :=
  rows.map (enhanceRecord dbFind)

/-- The decoration field names the enhancer may write. -/
def decorationKeys : List String :=
  ["customers_name", "products_name", "categories_name", "customer_region",
   "customer_zone"]

/-! ### Claim theorems -/

theorem listStarts_append_keep :
    ∀ (a b n : List Char), listStarts a n = true → listStarts (a ++ b) n = true
  | _, _, [], _ => by rw [listStarts]
  | [], _, _ :: _, h => by simp [listStarts] at h
  | x :: a, b, m :: n, h => by
      rw [listStarts] at h
      simp only [Bool.and_eq_true] at h
      rw [List.cons_append, listStarts]
      simp only [Bool.and_eq_true]
      exact ⟨h.1, listStarts_append_keep a b n h.2⟩

theorem strIncludes_of_starts {a n : String} (b : String)
    (h : listStarts a.data n.data = true) :
    strIncludes (a ++ b) n = true := by
  rw [strIncludes, String.data_append, hasSubList.eq_def,
    if_pos (listStarts_append_keep a.data b.data n.data h)]

/-- A single-entry filter object with a non-`$` key translates exactly as
its `buildCondition` result, joined under `WHERE`. -/
theorem buildSQLFilter_single (k : String) (v : JSValue)
    (hk : listStarts k.data "$".data = false) :
    buildSQLFilter (vObj [(k, v)]) =
      (if (buildCondition k v).1 ≠ [] then
        "WHERE " ++ joinSep " AND " (buildCondition k v).1
      else "", (buildCondition k v).2) := by
  simp [buildSQLFilter, buildSQLFilterF, sqlStepWith, hk]

/-- Claim C1 counterexample: the tabular translator does not fail on an
unknown operator tag — it silently drops it.  `{age: {$foo: 5, $gt: 3}}`
emits only the `$gt` fragment with no error, and `{age: {$foo: 5}}` emits an
empty clause with no error, contradicting "the filter translator fails with
an unsupported-operator error … no silent drop occurs … on the tabular
backend (buildSQLFilter)". -/
theorem C1_counterexample :
    buildSQLFilter (vObj [("age", vObj [("$foo", vNum 5), ("$gt", vNum 3)])])
      = ("WHERE age > ?", [vNum 3]) ∧
    buildSQLFilter (vObj [("age", vObj [("$foo", vNum 5)])]) = ("", []) :=
  ⟨rfl, rfl⟩

/-- Claim C1 (amended): on the document backend an unknown operator makes
`buildMatch` throw (never silently ignored), a single unknown-operator
filter throws exactly `Invalid operator: <op>`, and the route's catch
surfaces such a message as a 400 client error; on the tabular backend
`buildSQLFilter` itself never fails — an unknown operator key in a filter
entry yields an empty clause and no parameters (a silent drop), the
route-level operator whitelist being the only guard. -/
theorem C1_amended :
    (∀ fs : List MatchFilter, (∃ f ∈ fs, OPERATORS f.operator = none) →
      ∃ e, buildMatch fs = .error e) ∧
    (∀ fld op v, OPERATORS op = none →
      buildMatch [⟨fld, op, v⟩] = .error (.invalidOperator op)) ∧
    (∀ op, mongoCatchResponse ("Invalid operator: " ++ op)
      = (400, "Invalid operator: " ++ op)) ∧
    (∀ k op v, listStarts k.data "$".data = false → SQL_OPERATORS op = none →
      buildSQLFilter (vObj [(k, vObj [(op, v)])]) = ("", [])) := by
  refine ⟨?_, ?_, ?_, ?_⟩
  · intro fs h
    obtain ⟨f, hmem, hnone⟩ := h
    exact buildMatchGo_fails fs [] ⟨f, hmem, by rw [isStdOp, hnone]⟩
  · intro fld op v hop
    rw [buildMatch, buildMatchGo, hop]
  · intro op
    rw [mongoCatchResponse,
      if_pos (by rw [strIncludes_of_starts op (by decide)]; rfl)]
  · intro k op v hk hop
    rw [buildSQLFilter_single k _ hk]
    have hbc : buildCondition k (vObj [(op, v)]) = ([], []) := by
      simp [buildCondition, bcStep, hop]
    rw [hbc]
    simp

/-- Claim C1 witness: the amended theorem at concrete inputs — the filter
list containing operator `foo` (absent from `OPERATORS`) makes `buildMatch`
fail, and `{age: {$foo: 5}}` yields the empty tabular translation. -/
theorem C1_witness :
    (∃ e, buildMatch [⟨"amount", "foo", vNull⟩] = .error e) ∧
    buildSQLFilter (vObj [("age", vObj [("$foo", vNum 5)])]) = ("", []) :=
  ⟨C1_amended.1 [⟨"amount", "foo", vNull⟩]
      ⟨⟨"amount", "foo", vNull⟩, by simp, rfl⟩,
    C1_amended.2.2.2 "age" "$foo" (vNum 5) (by decide) rfl⟩

/-- Claim C2 (code bug): the tabular joinPlanner's dedupe key interpolates
`j.localField`/`j.foreignField`, fields a tabular join record does not
carry, so the key degenerates to the `from` column and two distinct join
edges are collapsed.  With root `categories` and references to `products`
and `invoices`, the raw plan holds two distinct edges that share the key
`categories._id:undefined:undefined`, and the deduplicated plan keeps only
the first — the `invoices` join edge is lost. -/
theorem C2_eval :
    buildJoinPlanRawSQL "categories"
        [⟨"products", "name", "eq", vStr "x"⟩,
         ⟨"invoices", "amount", "gt", vNum 5⟩]
      = [⟨"categories._id", "products.category_id", "INNER"⟩,
         ⟨"categories._id", "invoices.category_id", "INNER"⟩] ∧
    (⟨"categories._id", "products.category_id", "INNER"⟩ : SQLJoin)
      ≠ ⟨"categories._id", "invoices.category_id", "INNER"⟩ ∧
    sqlJoinKey ⟨"categories._id", "products.category_id", "INNER"⟩
      = sqlJoinKey ⟨"categories._id", "invoices.category_id", "INNER"⟩ ∧
    buildJoinPlanSQL "categories"
        [⟨"products", "name", "eq", vStr "x"⟩,
         ⟨"invoices", "amount", "gt", vNum 5⟩]
      = [⟨"categories._id", "products.category_id", "INNER"⟩] :=
  ⟨rfl, by decide, rfl, rfl⟩

/-- Claim C3 counterexample: the document backend's regular (no-aggregation)
path hands aggregation-tagged filters to `buildMatch` unfiltered — a `sum`
filter appears in the match-filter list, and `buildMatch` then throws a
`TypeError` (the aggregation entry is a string, not a function), so the
claim "aggregation-tagged entries are removed … on all request paths
including the regular path" fails. -/
theorem C3_counterexample :
    (⟨"amount", "sum", vNum 1⟩ : MatchFilter)
      ∈ regularMatchFilters [⟨"invoices", "amount", "sum", vNum 1⟩] ∧
    aggTags.contains "sum" = true ∧
    buildMatch (regularMatchFilters [⟨"invoices", "amount", "sum", vNum 1⟩])
      = .error (.notAFunction "sum") := by
  refine ⟨?_, rfl, rfl⟩
  have h : regularMatchFilters [⟨"invoices", "amount", "sum", vNum 1⟩]
      = [⟨"amount", "sum", vNum 1⟩] := rfl
  rw [h]
  exact List.mem_singleton.mpr rfl

/-- Claim C3 (amended): aggregation-tagged operators are stripped before the
predicate translator by both document pipeline builders (their match-filter
list contains no aggregation tag) and by the tabular route's filter
conversion (aggregation-tagged filters contribute nothing to the `sqlFilter`
object); only the document regular path omits the stripping. -/
theorem C3_amended :
    ∀ (fs : List RFilter) (root : String),
    ((strippedMatchFilters fs).all (fun f => !aggTags.contains f.operator)
      = true) ∧
    sqlFilterObjOf root fs
      = sqlFilterObjOf root (fs.filter (fun f => !aggTags.contains f.operator))
    := by
  intro fs root
  constructor
  · rw [strippedMatchFilters]
    rw [List.all_eq_true]
    intro f hf
    exact (List.mem_filter.mp hf).2
  · rw [sqlFilterObjOf, sqlFilterObjOf]
    suffices hgen : ∀ (l : List RFilter) (acc : List (String × JSValue)),
        l.foldl (sqlConvStep root) acc
          = (l.filter (fun f => !aggTags.contains f.operator)).foldl
              (sqlConvStep root) acc by
      exact hgen fs []
    intro l
    induction l with
    | nil => intro acc; rfl
    | cons f r ih =>
        intro acc
        rw [List.foldl_cons, List.filter_cons]
        by_cases hagg : aggTags.contains f.operator
        · rw [sqlConvStep, if_pos hagg]
          simp only [hagg, Bool.not_true, Bool.false_eq_true, if_false]
          exact ih acc
        · have hf : aggTags.contains f.operator = false := by
            simpa using hagg
          simp only [hf, Bool.not_false, if_true]
          rw [List.foldl_cons]
          exact ih _

/-- Claim C4 counterexample: the tabular translator does not pass every
filter value into the parameter list unmodified — a `$regex` pattern is
rewritten (`.*` and `*` become `%`) before being pushed as the LIKE
parameter. -/
theorem C4_counterexample :
    buildSQLFilter (vObj [("name", vObj [("$regex", vStr ".*bob")])])
      = ("WHERE name LIKE ?", [vStr "%bob"]) ∧
    ¬((vStr "%bob" : JSValue) = vStr ".*bob") :=
  ⟨rfl, by simp⟩

/-- Claim C4 (amended): the document backend coerces exactly as the
specification orders it — identifier shape first, then date shape, then
numeric (the source checks numeric before date, but a date-shaped string is
never numeric-looking, so the orders agree extensionally); the tabular
backend passes values into the parameter list unmodified for direct
equality, the comparison operators and `$in`/`$nin` — except `$regex`,
whose pattern is wildcard-rewritten for LIKE. -/
theorem C4_amended :
    (∀ v, coerceValue v = coerceSpecOrder v) ∧
    (∀ (k s : String), listStarts k.data "$".data = false →
      buildSQLFilter (vObj [(k, vStr s)])
        = ("WHERE " ++ k ++ " = ?", [vStr s])) ∧
    (∀ (k op : String) (v : JSValue) (sqlOp : String),
      listStarts k.data "$".data = false → SQL_OPERATORS op = some sqlOp →
      ¬(op = "$in" ∨ op = "$nin") → ¬(op = "$regex") →
      buildSQLFilter (vObj [(k, vObj [(op, v)])])
        = ("WHERE " ++ k ++ " " ++ sqlOp ++ " ?", [v])) ∧
    (∀ (k : String) (xs : List JSValue), listStarts k.data "$".data = false →
      buildSQLFilter (vObj [(k, vObj [("$in", vArr xs)])])
        = ("WHERE " ++ k ++ " IN (" ++ placeholdersFor xs ++ ")", xs)) ∧
    (∀ (k s : String), listStarts k.data "$".data = false →
      buildSQLFilter (vObj [(k, vObj [("$regex", vStr s)])])
        = ("WHERE " ++ k ++ " LIKE ?", [vStr (regexToLike s)])) := by
  refine ⟨coerceValue_eq_specOrder, ?_, ?_, ?_, ?_⟩
  · intro k s hk
    rw [buildSQLFilter_single k _ hk]
    have hbc : buildCondition k (vStr s) = ([k ++ " = ?"], [vStr s]) := rfl
    rw [hbc]
    simp [joinSep, String.append_assoc]
  · intro k op v sqlOp hk hop hin hre
    rw [buildSQLFilter_single k _ hk]
    have hbc : buildCondition k (vObj [(op, v)])
        = ([k ++ " " ++ sqlOp ++ " ?"], [v]) := by
      simp [buildCondition, bcStep, hop, if_neg hin, if_neg hre]
    rw [hbc]
    simp [joinSep, String.append_assoc]
  · intro k xs hk
    rw [buildSQLFilter_single k _ hk]
    have hbc : buildCondition k (vObj [("$in", vArr xs)])
        = ([k ++ " " ++ "IN" ++ " (" ++ placeholdersFor xs ++ ")"], xs) := by
      simp [buildCondition, bcStep, SQL_OPERATORS, sqlOpsList]
    rw [hbc]
    simp [joinSep, String.append_assoc]
  · intro k s hk
    rw [buildSQLFilter_single k _ hk]
    have hbc : buildCondition k (vObj [("$regex", vStr s)])
        = ([k ++ " LIKE ?"], [vStr (regexToLike s)]) := by
      simp [buildCondition, bcStep, SQL_OPERATORS, sqlOpsList]
    rw [hbc]
    simp [joinSep, String.append_assoc]

/-- Claim C4 witness: the amended theorem at concrete inputs — coercion of a
date-shaped string, and the tabular translation of a direct equality and a
`$gt` comparison. -/
theorem C4_witness :
    coerceValue (vStr "2024-01-15") = coerceSpecOrder (vStr "2024-01-15") ∧
    buildSQLFilter (vObj [("region", vStr "North")])
      = ("WHERE " ++ "region" ++ " = ?", [vStr "North"]) ∧
    buildSQLFilter (vObj [("amount", vObj [("$gt", vNum 100)])])
      = ("WHERE " ++ "amount" ++ " " ++ ">" ++ " ?", [vNum 100]) :=
  ⟨C4_amended.1 (vStr "2024-01-15"),
    C4_amended.2.1 "region" "North" (by decide),
    C4_amended.2.2.1 "amount" "$gt" (vNum 100) ">" (by decide) rfl
      (by decide) (by decide)⟩

/-- Claim C5: for every filter object (with ordinary `?`-free column keys),
the tabular translator's parameter list aligns exactly with its placeholders
— the number of `?` in the returned WHERE fragment equals the number of
returned parameters; fragments and parameters are appended side by side in
the same traversal order throughout the construction, so the i-th parameter
feeds the i-th placeholder. -/
theorem C5_alignment (f : JSValue) (h : noQKeys f = true) :
    countQ (buildSQLFilter f).1 = (buildSQLFilter f).2.length :=
  countQ_buildSQLFilterF (jsSize f + 1) f h

/-- Claim C5 witness: the alignment theorem at a nested `$and`/`$or` filter
(three placeholders, three parameters). -/
theorem C5_witness :
    noQKeys (vObj [("$and", vArr [vObj [("a", vObj [("$eq", vNum 1)])],
        vObj [("$or", vArr [vObj [("b", vNum 2)], vObj [("b", vNum 3)]])]])])
      = true ∧
    countQ (buildSQLFilter (vObj [("$and",
        vArr [vObj [("a", vObj [("$eq", vNum 1)])],
          vObj [("$or", vArr [vObj [("b", vNum 2)],
            vObj [("b", vNum 3)]])]])])).1
      = (buildSQLFilter (vObj [("$and",
        vArr [vObj [("a", vObj [("$eq", vNum 1)])],
          vObj [("$or", vArr [vObj [("b", vNum 2)],
            vObj [("b", vNum 3)]])]])])).2.length :=
  ⟨rfl, C5_alignment _ rfl⟩

/-- Claim C6 counterexample: a request with one aggregation op over an empty
collection yields zero aggregate rows, not one — the `$group` stage emits no
group for an empty input, so "the executor returns exactly one aggregate
row" fails on the document backend. -/
theorem C6_counterexample :
    mongoAggregateRows (fun _ => []) []
        [⟨"invoices", "amount", "sum", none⟩] = .ok ([] : List Doc) ∧
    ¬(([] : List Doc).length = 1) :=
  ⟨rfl, by decide⟩

/-- Claim C6 (amended): with at least one aggregation op, the document
aggregation pipeline is the shared join-and-match prefix (identical to the
detailed pipeline) followed by one `$group` stage holding every op, so all
ops are computed over the same filtered, joined row set; that `$group`
yields exactly one aggregate row when the filtered set is non-empty and
zero rows when it is empty.  On the tabular backend every per-op
aggregation query carries the same FROM/JOIN/WHERE tail and the same
parameter list, both derived from the request's one plan and filter. -/
theorem C6_amended :
    (∀ fs aggs, 0 < aggs.length →
      buildAggregationPipeline fs aggs
        = (buildAggregationPipeline fs []).map (fun p =>
            p ++ [.groupSt (groupSpecOf (resolveRoot fs) aggs)])) ∧
    (∀ fs, buildDetailedRecordsPipeline fs = buildAggregationPipeline fs []) ∧
    (∀ spec docs, (evalGroup spec docs).length
      = if docs.isEmpty then 0 else 1) ∧
    (∀ db stages spec docs,
      evalPipeline db (stages ++ [.groupSt spec]) docs
        = evalGroup spec (evalPipeline db stages docs)) ∧
    (∀ plan filter agg q ps, sqlAggQuery plan filter agg = .ok (q, ps) →
      ps = (buildSQLFilter filter).2 ∧
      ∃ sel, q = "SELECT " ++ sel ++ sqlAggTail plan filter) := by
  refine ⟨?_, ?_, ?_, ?_, ?_⟩
  · intro fs aggs h
    rw [buildAggregationPipeline, buildAggregationPipeline]
    simp [h]
  · intro fs
    rw [buildDetailedRecordsPipeline, buildAggregationPipeline]
    simp
  · intro spec docs
    rw [evalGroup]
    by_cases h : docs.isEmpty <;> simp [h]
  · intro db stages spec docs
    rw [evalPipeline, evalPipeline, List.foldl_append]
    rfl
  · intro plan filter agg q ps h
    rw [sqlAggQuery] at h
    rcases he : sqlAggExpr agg with e | expr
    · rw [he] at h; exact Except.noConfusion h
    · rw [he] at h
      simp only [Except.map] at h
      injection h with h
      injection h with h1 h2
      refine ⟨h2.symm, expr ++ " as " ++ sqlAggAlias agg, ?_⟩
      rw [← h1]
      simp [String.append_assoc]

/-- Claim C6 witness: the amended theorem at concrete inputs — one `sum` op
appends a single `$group` stage to the shared prefix, and a concrete
tabular aggregation query decomposes into SELECT expression plus the shared
tail with the shared parameters. -/
theorem C6_witness :
    (0 < ([⟨"invoices", "amount", "sum", none⟩] : List AggOp).length ∧
      buildAggregationPipeline [] [⟨"invoices", "amount", "sum", none⟩]
        = (buildAggregationPipeline [] []).map (fun p =>
            p ++ [.groupSt (groupSpecOf (resolveRoot ([] : List RFilter))
              [⟨"invoices", "amount", "sum", none⟩])])) ∧
    (sqlAggQuery ⟨["invoices"], [], ["*"]⟩ (vObj []) ⟨"sum", "amount", none⟩
        = .ok ("SELECT SUM(amount) as sum_amount"
            ++ sqlAggTail ⟨["invoices"], [], ["*"]⟩ (vObj []), []) →
      ([] : List JSValue) = (buildSQLFilter (vObj [])).2 ∧
      ∃ sel, "SELECT SUM(amount) as sum_amount"
          ++ sqlAggTail ⟨["invoices"], [], ["*"]⟩ (vObj [])
        = "SELECT " ++ sel ++ sqlAggTail ⟨["invoices"], [], ["*"]⟩ (vObj [])) :=
  ⟨⟨by decide, C6_amended.1 [] [⟨"invoices", "amount", "sum", none⟩]
      (by decide)⟩,
    C6_amended.2.2.2.2 ⟨["invoices"], [], ["*"]⟩ (vObj [])
      ⟨"sum", "amount", none⟩ _ _⟩

/-- Claim C7 counterexample: a well-formed `between` filter carries an
object value `{from, to}`, and `validateFilter` — run by the tabular route
on every path and by the document route on the regular path — rejects every
object value with `Object values not allowed for security reasons`; the
tabular operator map has no `between` entry at all.  So such a filter is
not accepted by the public query path on both backends. -/
theorem C7_counterexample :
    validateFilter ⟨"invoices", "amount", "between",
        vObj [("from", vNum 1), ("to", vNum 2)]⟩
      = .error "Object values not allowed for security reasons" ∧
    validateFilterSQL ⟨"invoices", "amount", "between",
        vObj [("from", vNum 1), ("to", vNum 2)]⟩
      = .error "Object values not allowed for security reasons" ∧
    SQL_OPERATORS "$between" = none :=
  ⟨rfl, rfl, rfl⟩

/-- Claim C7 (amended): in the document operator map, `between` on an object
with two bounds expands to the conjunction of a `$gte` lower bound and a
`$lte` upper bound on the named field (with value coercion), and
`buildMatch` accepts it — but every filter whose value is a non-array
object is rejected by the routes' `validateFilter`, so a well-formed
`between` filter only survives on the document aggregation path, which
skips validation. -/
theorem C7_amended :
    (∀ (fld : String) (a b : JSValue),
      buildMatch [⟨fld, "between", vObj [("from", a), ("to", b)]⟩]
        = .ok [(fld, [("$gte", coerceValue a), ("$lte", coerceValue b)])]) ∧
    (∀ f : RFilter,
      ["invoices", "customers", "products", "categories"].contains
        f.collection = true →
      strIncludes f.field "$" = false → strIncludes f.field "." = false →
      ["eq", "ne", "gt", "gte", "lt", "lte", "contains", "startsWith",
        "endsWith", "between", "in", "regex", "sum", "avg", "min", "max",
        "count"].contains f.operator = true →
      isPlainObject f.value = true →
      validateFilter f
        = .error "Object values not allowed for security reasons") := by
  constructor
  · intro fld a b
    rfl
  · intro f hc hf1 hf2 hop hobj
    rw [validateFilter]
    rw [if_neg (by rw [hc]; simp)]
    rw [if_neg (by rw [hf1, hf2]; simp)]
    rw [if_neg (by rw [hop]; simp)]
    rw [if_pos hobj]

/-- Claim C7 witness: the amended theorem at a concrete `between` filter. -/
theorem C7_witness :
    buildMatch [⟨"amount", "between", vObj [("from", vNum 1), ("to", vNum 2)]⟩]
      = .ok [("amount", [("$gte", coerceValue (vNum 1)),
        ("$lte", coerceValue (vNum 2))])] ∧
    validateFilter ⟨"invoices", "amount", "between",
        vObj [("from", vNum 1), ("to", vNum 2)]⟩
      = .error "Object values not allowed for security reasons" :=
  ⟨C7_amended.1 "amount" (vNum 1) (vNum 2),
    C7_amended.2 ⟨"invoices", "amount", "between",
      vObj [("from", vNum 1), ("to", vNum 2)]⟩ rfl rfl rfl rfl rfl⟩

/-- Claim C8 counterexample: a tabular backend execution failure is not
opaque to the caller — the per-aggregation result entry embeds the raw
driver error message verbatim. -/
theorem C8_counterexample :
    executeAggregations
        (fun _ _ => .error "ER_BAD_FIELD_ERROR: Unknown column x")
        [⟨"sum", "amount", none⟩] ⟨["invoices"], [], ["*"]⟩ (vObj [])
      = [⟨"sum", "amount", "sum_amount", none,
          some "ER_BAD_FIELD_ERROR: Unknown column x"⟩] := rfl

/-- Claim C8 (amended): the document route's catch returns the opaque
`500 Internal server error` for every message not containing `Invalid` or
`validation` (detail is only logged); the tabular backend leaks — when the
driver fails, each aggregation's result entry carries the raw driver error
message in its `error` field with a null value. -/
theorem C8_amended :
    (∀ msg, strIncludes msg "Invalid" = false →
      strIncludes msg "validation" = false →
      mongoCatchResponse msg = (500, "Internal server error")) ∧
    (∀ (e : String) (aggs : List SQLAgg) (plan : SQLPlan) (filter : JSValue)
      (agg : SQLAgg), agg ∈ aggs →
      ∀ q ps, sqlAggQuery plan filter agg = .ok (q, ps) →
      (⟨agg.operation, agg.field, sqlAggAlias agg, none, some e⟩ : AggEntry)
        ∈ executeAggregations (fun _ _ => .error e) aggs plan filter) := by
  constructor
  · intro msg h1 h2
    rw [mongoCatchResponse, if_neg (by rw [h1, h2]; simp)]
  · intro e aggs plan filter agg hmem q ps hq
    rw [executeAggregations]
    refine List.mem_map.mpr ⟨agg, hmem, ?_⟩
    rw [hq]

/-- Claim C8 witness: the amended theorem at concrete inputs — a plain
driver message maps to the opaque 500, and a concrete failing aggregation
run surfaces the raw message in its entry. -/
theorem C8_witness :
    mongoCatchResponse "connect ECONNREFUSED 127.0.0.1:3306"
      = (500, "Internal server error") ∧
    (⟨"sum", "amount", sqlAggAlias ⟨"sum", "amount", none⟩, none,
        some "ER_BAD_FIELD_ERROR: Unknown column x"⟩ : AggEntry)
      ∈ executeAggregations
          (fun _ _ => .error "ER_BAD_FIELD_ERROR: Unknown column x")
          [⟨"sum", "amount", none⟩] ⟨["invoices"], [], ["*"]⟩ (vObj []) :=
  ⟨C8_amended.1 "connect ECONNREFUSED 127.0.0.1:3306" (by decide) (by decide),
    C8_amended.2 "ER_BAD_FIELD_ERROR: Unknown column x"
      [⟨"sum", "amount", none⟩] ⟨["invoices"], [], ["*"]⟩ (vObj [])
      ⟨"sum", "amount", none⟩ (List.mem_singleton.mpr rfl)
      "SELECT SUM(amount) as sum_amount FROM invoices" [] rfl⟩

theorem objGetO_objSet_ne (o : List (String × JSValue)) {k k' : String}
    (v : JSValue) (h : k' ≠ k) : objGetO (objSet o k v) k' = objGetO o k' := by
  induction o with
  | nil => simp [objSet, objGetO, Ne.symm h]
  | cons kv r ih =>
      obtain ⟨k0, v0⟩ := kv
      by_cases he : k0 = k
      · subst he
        simp [objSet, objGetO, Ne.symm h]
      · simp only [objSet, if_neg he]
        by_cases he' : k0 = k'
        · subst he'; simp [objGetO]
        · simp [objGetO, he', ih]

/-- One enhancer mapping only ever writes its decoration keys: lookups under
any other key are untouched. -/
theorem enhanceOne_preserves (dbFind : String → JSValue → Option Doc)
    (acc : Doc) (idField coll : String) {k : String}
    (h1 : k ≠ coll ++ "_name") (h2 : k ≠ "customer_region")
    (h3 : k ≠ "customer_zone") :
    objGetO (enhanceOne dbFind acc idField coll) k = objGetO acc k := by
  have hstep : ∀ (c : Prop) [Decidable c] (d : Doc) (key : String)
      (v : JSValue), k ≠ key →
      objGetO (if c then objSet d key v else d) k = objGetO d k := by
    intro c _ d key v hne
    by_cases hc : c
    · rw [if_pos hc, objGetO_objSet_ne _ _ hne]
    · rw [if_neg hc]
  rw [enhanceOne]
  rcases objGetO acc idField with _ | idv
  · rfl
  dsimp only
  by_cases ht : jsTruthy idv
  · rw [if_pos ht]
    rcases dbFind coll idv with _ | doc
    · rfl
    dsimp only
    rw [hstep _ _ _ _ h3, hstep _ _ _ _ h2, hstep _ _ _ _ h1,
      objGetO_objSet_ne _ _ h1]
  · rw [if_neg ht]

/-- Claim C9 counterexample: the enhancer can overwrite an existing field of
the input row — a row that already carries `customers_name` has it replaced
by the looked-up customer's name, so "every field of an input row is present
and unchanged in the corresponding output row" fails. -/
theorem C9_counterexample :
    enhanceResultsWithJoinedFields
        (fun c idv => if c == "customers" && jsEq idv (vStr "c1") then
          some [("name", vStr "new")] else none)
        [[("customer_id", vStr "c1"), ("customers_name", vStr "old")]]
      = [[("customer_id", vStr "c1"), ("customers_name", vStr "new")]] ∧
    objGetO [("customer_id", vStr "c1"), ("customers_name", vStr "old")]
        "customers_name" = some (vStr "old") ∧
    ¬(some (vStr "new") = some (vStr "old")) :=
  ⟨rfl, rfl, by simp⟩

/-- Claim C9 (amended): the enhancer returns exactly one output row per
input row in the same order, never drops a row and surfaces no error
(lookup misses leave the row as it was); every input field whose name is
not one of the five decoration keys (`customers_name`, `products_name`,
`categories_name`, `customer_region`, `customer_zone`) is preserved
unchanged — a field that collides with a decoration key may be
overwritten. -/
theorem C9_amended (dbFind : String → JSValue → Option Doc)
    (rows : List Doc) :
    (enhanceResultsWithJoinedFields dbFind rows).length = rows.length ∧
    ∀ (i : Nat) (k : String), decorationKeys.contains k = false →
      ((enhanceResultsWithJoinedFields dbFind rows).get? i).map
          (fun r => objGetO r k)
        = (rows.get? i).map (fun r => objGetO r k) := by
  constructor
  · rw [enhanceResultsWithJoinedFields, List.length_map]
  · intro i k hk
    rw [enhanceResultsWithJoinedFields, List.get?_map]
    rcases rows.get? i with _ | r
    · rfl
    dsimp only [Option.map]
    refine congrArg some ?_
    have hks : k ≠ "customers_name" ∧ k ≠ "products_name" ∧
        k ≠ "categories_name" ∧ k ≠ "customer_region" ∧
        k ≠ "customer_zone" := by
      rw [decorationKeys] at hk
      simp only [List.contains_cons, Bool.or_eq_false_iff,
        List.contains_nil, beq_eq_false_iff_ne] at hk
      exact ⟨hk.1, hk.2.1, hk.2.2.1, hk.2.2.2.1, hk.2.2.2.2.1⟩
    obtain ⟨hk1, hk2, hk3, hk4, hk5⟩ := hks
    rw [enhanceRecord, idFieldMappings]
    simp only [List.foldl_cons, List.foldl_nil]
    rw [enhanceOne_preserves _ _ _ _ hk3 hk4 hk5,
      enhanceOne_preserves _ _ _ _ hk2 hk4 hk5,
      enhanceOne_preserves _ _ _ _ hk1 hk4 hk5]

/-- Claim C9 witness: the amended theorem at a concrete database and row
list, for the untouched field `amount`. -/
theorem C9_witness :
    (enhanceResultsWithJoinedFields
        (fun c idv => if c == "customers" && jsEq idv (vStr "c1") then
          some [("name", vStr "Ada")] else none)
        [[("customer_id", vStr "c1"), ("amount", vNum 7)]]).length
      = ([[("customer_id", vStr "c1"), ("amount", vNum 7)]] : List Doc).length
    ∧ (decorationKeys.contains "amount" = false ∧
      ((enhanceResultsWithJoinedFields
          (fun c idv => if c == "customers" && jsEq idv (vStr "c1") then
            some [("name", vStr "Ada")] else none)
          [[("customer_id", vStr "c1"), ("amount", vNum 7)]]).get? 0).map
            (fun r => objGetO r "amount")
        = (([[("customer_id", vStr "c1"), ("amount", vNum 7)]] :
            List Doc).get? 0).map (fun r => objGetO r "amount")) :=
  ⟨(C9_amended (fun c idv => if c == "customers" && jsEq idv (vStr "c1") then
        some [("name", vStr "Ada")] else none)
      [[("customer_id", vStr "c1"), ("amount", vNum 7)]]).1,
    rfl,
    (C9_amended (fun c idv => if c == "customers" && jsEq idv (vStr "c1") then
        some [("name", vStr "Ada")] else none)
      [[("customer_id", vStr "c1"), ("amount", vNum 7)]]).2 0 "amount" rfl⟩

/-- Claim C10: over a filter list whose operators are all standard,
`buildMatch` succeeds with a match object holding exactly one top-level
condition per distinct field name (its keys are duplicate-free), and the
condition stored for each field is that field's condition objects merged
left to right by key-wise `Object.assign` — so distinct operators on one
field are conjoined into one condition object, while a repeated operator
key is overwritten by the later filter's value. -/
theorem C10_merge (fs : List MatchFilter)
    (h : ∀ f ∈ fs, isStdOp f.operator = true) :
    ∃ m, buildMatch fs = .ok m ∧ (m.map Prod.fst).Nodup ∧
      ∀ phi, objGetMC m phi = mergeLk none (condsFor fs phi) := by
  obtain ⟨m, hm, hnod, hchar⟩ := buildMatchGo_char fs [] h (by simp)
  exact ⟨m, hm, hnod, fun phi => hchar phi⟩

/-- Claim C10 witness: the merge theorem at a three-filter list on one
field — `gt` and `lt` conjoin, the second `gt` overwrites the first. -/
theorem C10_witness :
    (∀ f ∈ ([⟨"amount", "gt", vNum 5⟩, ⟨"amount", "lt", vNum 10⟩,
        ⟨"amount", "gt", vNum 7⟩] : List MatchFilter),
      isStdOp f.operator = true) ∧
    ∃ m, buildMatch [⟨"amount", "gt", vNum 5⟩, ⟨"amount", "lt", vNum 10⟩,
        ⟨"amount", "gt", vNum 7⟩] = .ok m ∧
      (m.map Prod.fst).Nodup ∧
      ∀ phi, objGetMC m phi = mergeLk none
        (condsFor [⟨"amount", "gt", vNum 5⟩, ⟨"amount", "lt", vNum 10⟩,
          ⟨"amount", "gt", vNum 7⟩] phi) :=
  ⟨fun f hf => by
      rcases List.mem_cons.mp hf with h | hf
      · rw [h]; rfl
      rcases List.mem_cons.mp hf with h | hf
      · rw [h]; rfl
      rcases List.mem_cons.mp hf with h | hf
      · rw [h]; rfl
      · simp at hf,
    C10_merge _ (fun f hf => by
      rcases List.mem_cons.mp hf with h | hf
      · rw [h]; rfl
      rcases List.mem_cons.mp hf with h | hf
      · rw [h]; rfl
      rcases List.mem_cons.mp hf with h | hf
      · rw [h]; rfl
      · simp at hf)⟩
